import Mathlib

/-!
EADC driver (`Library/StdDriver/src/eadc.c`): the open / calibrate sequence.

A shallow embedding of `EADC_Open`.  Registers are 32-bit words held as natural
numbers.  The register file is explicit, every store the routine performs is
recorded in a write log, and the two hardware-driven status bits that the routine
polls (`ADCRST` in `CTL`, `CALIF` in `CALSR`) are supplied by an oracle indexed by
the poll number.
-/

namespace EADC

/-! ## Data model -/

/-- The converter instances an `EADC_T *` argument of the driver can designate. -/
inductive EADC_T
  | EADC0
  | EADC1
  | EADC2
  deriving DecidableEq, Repr

/-- Register-layout constants and return codes that `eadc.c` takes from `NuMicro.h`.
The header is not part of the sources, so the driver is embedded over an arbitrary
layout; every field carries the name of the macro it stands for. -/
structure Layout where
  EADC_CTL_ADCEN_Msk : Nat
  EADC_CTL_ADCRST_Msk : Nat
  EADC_CTL_DIFFEN_Msk : Nat
  EADC_CTL_DIFFEN_SINGLE_END : Nat
  EADC_CTL_DIFFEN_DIFFERENTIAL : Nat
  EADC_CALSR_CALIF_Msk : Nat
  EADC_CALCTL_CAL_Msk : Nat
  CLK_CLKDIV0_EADC0DIV_Msk : Nat
  CLK_CLKDIV0_EADC0DIV_Pos : Nat
  CLK_CLKDIV2_EADC1DIV_Msk : Nat
  CLK_CLKDIV2_EADC1DIV_Pos : Nat
  CLK_CLKDIV5_EADC2DIV_Msk : Nat
  CLK_CLKDIV5_EADC2DIV_Pos : Nat
  CLK_CLKSEL0_EADC0SEL_Msk : Nat
  CLK_CLKSEL0_EADC0SEL_HCLK : Nat
  CLK_CLKSEL0_EADC1SEL_Msk : Nat
  CLK_CLKSEL0_EADC1SEL_HCLK : Nat
  CLK_CLKSEL0_EADC2SEL_Msk : Nat
  CLK_CLKSEL0_EADC2SEL_HCLK : Nat
  CLK_PCLKDIV_APB1DIV_Msk : Nat
  CLK_PCLKDIV_APB1DIV_Pos : Nat
  EADC_TIMEOUT_ERR : Int
  EADC_CAL_ERR : Int
  EADC_CLKDIV_ERR : Int

/-- Modelled from the spec: the register layout of the target chip family
("bit masks and positions are part of the vendor's published register layout",
"values are compile-time constants sourced from hardware documentation"); the
header `NuMicro.h` that defines them is missing from the sources.  This instance is
the concrete layout at which the general results are instantiated. -/
def m460 : Layout where
  EADC_CTL_ADCEN_Msk := 0x1
  EADC_CTL_ADCRST_Msk := 0x2
  EADC_CTL_DIFFEN_Msk := 0x100
  EADC_CTL_DIFFEN_SINGLE_END := 0
  EADC_CTL_DIFFEN_DIFFERENTIAL := 0x100
  EADC_CALSR_CALIF_Msk := 0x10000
  EADC_CALCTL_CAL_Msk := 0x2
  CLK_CLKDIV0_EADC0DIV_Msk := 0xFF0000
  CLK_CLKDIV0_EADC0DIV_Pos := 16
  CLK_CLKDIV2_EADC1DIV_Msk := 0xFF000000
  CLK_CLKDIV2_EADC1DIV_Pos := 24
  CLK_CLKDIV5_EADC2DIV_Msk := 0xFF000000
  CLK_CLKDIV5_EADC2DIV_Pos := 24
  CLK_CLKSEL0_EADC0SEL_Msk := 0xC00
  CLK_CLKSEL0_EADC0SEL_HCLK := 0x800
  CLK_CLKSEL0_EADC1SEL_Msk := 0x3000
  CLK_CLKSEL0_EADC1SEL_HCLK := 0x2000
  CLK_CLKSEL0_EADC2SEL_Msk := 0xC000
  CLK_CLKSEL0_EADC2SEL_HCLK := 0x8000
  CLK_PCLKDIV_APB1DIV_Msk := 0x70
  CLK_PCLKDIV_APB1DIV_Pos := 4
  EADC_TIMEOUT_ERR := -1
  EADC_CAL_ERR := -2
  EADC_CLKDIV_ERR := -3

/-- The memory-mapped registers `EADC_Open` accesses: `eadc->CTL`, `eadc->CALSR`,
`eadc->CALCTL` of each converter, and the clock controller's `CLK->CLKSEL0`,
`CLK->PCLKDIV`, `CLK->CLKDIV0`, `CLK->CLKDIV2`, `CLK->CLKDIV5`. -/
inductive Reg
  | CTL (eadc : EADC_T)
  | CALSR (eadc : EADC_T)
  | CALCTL (eadc : EADC_T)
  | CLKSEL0
  | PCLKDIV
  | CLKDIV0
  | CLKDIV2
  | CLKDIV5
  deriving DecidableEq, Repr

/-- The device register file: the content of every register, and whether the
protected-register lock is engaged. -/
structure Regs where
  reg : Reg → Nat
  locked : Bool

/-- What the routine does to the device: a store to a register, or a change of the
protected-register lock. -/
inductive Event
  | write (r : Reg) (v : Nat)
  | unlockReg
  | lockReg
  deriving DecidableEq, Repr

/-- Execution state: the register file and the log of stores performed so far. -/
structure Mach where
  regs : Regs
  log : List Event

/-- Behaviour of the hardware during the two waits: `ADCRST k` is the reset-request
bit as returned by poll number `k` (from 0) of the reset wait, `CALIF k` the
calibration-finished flag as returned by poll number `k` of the calibration wait. -/
structure Hardware where
  ADCRST : Nat → Bool
  CALIF : Nat → Bool

/-- What `EADC_Open` leaves behind: its return value, the register file, the log of
its stores, and the number of polls each wait made. -/
structure Result where
  ret : Int
  regs : Regs
  log : List Event
  resetPolls : Nat
  calPolls : Nat

/-! ## Machine words and register access -/

/-- The operator `~` on a 32-bit word. -/
def not32 (x : Nat) : Nat := 4294967295 ^^^ (x % 4294967296)

/-- A register word in which the hardware has driven the bits of `msk` to `b`. -/
def hwBit (msk : Nat) (b : Bool) (v : Nat) : Nat :=
  if b then v ||| msk else v &&& not32 msk

/-- The register file with the content of register `r` replaced by `v`. -/
def Regs.set (s : Regs) (r : Reg) (v : Nat) : Regs :=
  { s with reg := Function.update s.reg r v }

/-- Effect of a store on the register file.  `CALIF` in `CALSR` is a
write-one-to-clear flag (line 90: "Clear Calibration Finish Interrupt Flag"): a
store clears it where a 1 is written and leaves it alone elsewhere; every other
bit takes the value stored. -/
def Regs.write (L : Layout) (r : Reg) (v : Nat) (s : Regs) : Regs :=
  match r with
  | .CALSR _ =>
    s.set r ((v &&& not32 L.EADC_CALSR_CALIF_Msk) |||
      ((s.reg r &&& L.EADC_CALSR_CALIF_Msk) &&& not32 v))
  | _ => s.set r v

/-- A volatile load. -/
def Mach.rd (m : Mach) (r : Reg) : Nat := m.regs.reg r

/-- A volatile store, recorded in the log. -/
def Mach.wr (L : Layout) (m : Mach) (r : Reg) (v : Nat) : Mach :=
  { regs := m.regs.write L r v, log := m.log ++ [Event.write r v] }

/-- The hardware changes the content of a register; the routine stores nothing. -/
def Mach.present (m : Mach) (r : Reg) (v : Nat) : Mach :=
  { m with regs := m.regs.set r v }

/-- Modelled from the spec: `SYS_IsRegLocked` of the missing header, the collaborator
operation "is protected-register lock engaged"; nonzero when the lock is engaged. -/
def SYS_IsRegLocked (m : Mach) : Nat := if m.regs.locked then 1 else 0

/-- Modelled from the spec: `SYS_UnlockReg` of the missing header, the collaborator
operation "disengage lock". -/
def SYS_UnlockReg (m : Mach) : Mach :=
  { regs := { m.regs with locked := false }, log := m.log ++ [Event.unlockReg] }

/-- Modelled from the spec: `SYS_LockReg` of the missing header, the collaborator
operation "engage lock". -/
def SYS_LockReg (m : Mach) : Mach :=
  { regs := { m.regs with locked := true }, log := m.log ++ [Event.lockReg] }

/-! ## The bounded waits -/

/-- Outcome of a wait, with the number of polls it made. -/
inductive Wait
  | done (polls : Nat)
  | expired (polls : Nat)
  deriving DecidableEq, Repr

/-- The loop `while (cond) { if (--u32Delay == 0) return ERR; }` of lines 52-58 and
95-101.  `cond k` is the loop condition as evaluated by poll number `k`; `u32Delay`
is a 32-bit counter, so the pre-decrement wraps from 0 to `0xFFFFFFFF`.  The result
is `none` only when `fuel` iterations do not finish the loop. -/
def busyWait (cond : Nat → Bool) : (fuel k u32Delay : Nat) → Option Wait
  | 0, _, _ => none
  | fuel + 1, k, u32Delay =>
    if cond k then
      let u32Delay := (u32Delay + 4294967295) % 4294967296
      if u32Delay = 0 then some (Wait.expired (k + 1))
      else busyWait cond fuel (k + 1) u32Delay
    else some (Wait.done (k + 1))

/-! ## `EADC_Open` -/

/-- Lines 125-151 of `EADC_Open`: "Check EADC clock frequency must not faster than
PCLK".  Reads `CLK->PCLKDIV` and the unit's divider register, stores nothing. -/
def EADC_Open_clockCheck (L : Layout) (eadc : EADC_T) (s : Regs) : Int :=
  match eadc with
  | .EADC0 =>
    if ((s.reg .PCLKDIV &&& L.CLK_PCLKDIV_APB1DIV_Msk) >>> L.CLK_PCLKDIV_APB1DIV_Pos) >
        ((s.reg .CLKDIV0 &&& L.CLK_CLKDIV0_EADC0DIV_Msk) >>> L.CLK_CLKDIV0_EADC0DIV_Pos)
    then L.EADC_CLKDIV_ERR else 0
  | .EADC1 =>
    if ((s.reg .PCLKDIV &&& L.CLK_PCLKDIV_APB1DIV_Msk) >>> L.CLK_PCLKDIV_APB1DIV_Pos) >
        ((s.reg .CLKDIV2 &&& L.CLK_CLKDIV2_EADC1DIV_Msk) >>> L.CLK_CLKDIV2_EADC1DIV_Pos)
    then L.EADC_CLKDIV_ERR else 0
  | .EADC2 =>
    if ((s.reg .PCLKDIV &&& L.CLK_PCLKDIV_APB1DIV_Msk) >>> L.CLK_PCLKDIV_APB1DIV_Pos) >
        ((s.reg .CLKDIV5 &&& L.CLK_CLKDIV5_EADC2DIV_Msk) >>> L.CLK_CLKDIV5_EADC2DIV_Pos)
    then L.EADC_CLKDIV_ERR else 0

/-- Lines 69-87 of `EADC_Open`: "Set EADC clock is less than 2*PCLK to do calibration
correctly".  Returns `u32ClkDivBackup` and the state after the two stores. -/
def EADC_Open_slowClock (L : Layout) (eadc : EADC_T) (m : Mach) : Nat × Mach :=
  match eadc with
  | .EADC0 =>
    let u32ClkDivBackup := m.rd .CLKDIV0
    let m := m.wr L .CLKDIV0
      ((m.rd .CLKDIV0 &&& not32 L.CLK_CLKDIV0_EADC0DIV_Msk) ||| (2 <<< L.CLK_CLKDIV0_EADC0DIV_Pos))
    let m := m.wr L .CLKSEL0
      ((m.rd .CLKSEL0 &&& not32 L.CLK_CLKSEL0_EADC0SEL_Msk) ||| L.CLK_CLKSEL0_EADC0SEL_HCLK)
    (u32ClkDivBackup, m)
  | .EADC1 =>
    let u32ClkDivBackup := m.rd .CLKDIV2
    let m := m.wr L .CLKDIV2
      ((m.rd .CLKDIV2 &&& not32 L.CLK_CLKDIV2_EADC1DIV_Msk) ||| (2 <<< L.CLK_CLKDIV2_EADC1DIV_Pos))
    let m := m.wr L .CLKSEL0
      ((m.rd .CLKSEL0 &&& not32 L.CLK_CLKSEL0_EADC1SEL_Msk) ||| L.CLK_CLKSEL0_EADC1SEL_HCLK)
    (u32ClkDivBackup, m)
  | .EADC2 =>
    let u32ClkDivBackup := m.rd .CLKDIV5
    let m := m.wr L .CLKDIV5
      ((m.rd .CLKDIV5 &&& not32 L.CLK_CLKDIV5_EADC2DIV_Msk) ||| (2 <<< L.CLK_CLKDIV5_EADC2DIV_Pos))
    let m := m.wr L .CLKSEL0
      ((m.rd .CLKSEL0 &&& not32 L.CLK_CLKSEL0_EADC2SEL_Msk) ||| L.CLK_CLKSEL0_EADC2SEL_HCLK)
    (u32ClkDivBackup, m)

/-- Lines 106-117 of `EADC_Open`: the unit's divider register gets `u32ClkDivBackup`. -/
def EADC_Open_restoreDiv (L : Layout) (eadc : EADC_T) (u32ClkDivBackup : Nat) (m : Mach) : Mach :=
  match eadc with
  | .EADC0 => m.wr L .CLKDIV0 u32ClkDivBackup
  | .EADC1 => m.wr L .CLKDIV2 u32ClkDivBackup
  | .EADC2 => m.wr L .CLKDIV5 u32ClkDivBackup

/-- The routine `EADC_Open(eadc, u32InputMode)` run on the register file `s`, with
`SystemCoreClock` and the hardware behaviour `hw` as further inputs.  Each `let`
is one statement of the source, in source order.  Poll `k` of the reset wait reads
`CTL` with the bit `ADCRST` as the hardware presents it (`hw.ADCRST k`), poll `k` of
the calibration wait reads `CALSR` with the flag `CALIF` as the hardware presents it
(`hw.CALIF k`); the register file keeps the word read by the last poll.  The result
is `none` only if one of the waits does not finish within `2^32` iterations. -/
def EADC_Open (L : Layout) (SystemCoreClock : Nat) (hw : Hardware) (eadc : EADC_T)
    (u32InputMode : Nat) (s : Regs) : Option Result :=
  let u32Delay := (SystemCoreClock % 4294967296) >>> 4
  let m : Mach := { regs := s, log := [] }
  let m := m.wr L (.CTL eadc) (m.rd (.CTL eadc) &&& not32 L.EADC_CTL_DIFFEN_Msk)
  let m := m.wr L (.CTL eadc) (m.rd (.CTL eadc) ||| (u32InputMode ||| L.EADC_CTL_ADCEN_Msk))
  if (m.rd (.CALSR eadc) &&& L.EADC_CALSR_CALIF_Msk) = 0 then
    let m := m.wr L (.CTL eadc) (m.rd (.CTL eadc) ||| L.EADC_CTL_ADCRST_Msk)
    let ctlAt := fun k => hwBit L.EADC_CTL_ADCRST_Msk (hw.ADCRST k) (m.rd (.CTL eadc))
    match busyWait
        (fun k => decide ((ctlAt k &&& L.EADC_CTL_ADCRST_Msk) = L.EADC_CTL_ADCRST_Msk))
        4294967296 0 u32Delay with
    | none => none
    | some (Wait.expired n) =>
      let m := m.present (.CTL eadc) (ctlAt (n - 1))
      some { ret := L.EADC_TIMEOUT_ERR, regs := m.regs, log := m.log,
             resetPolls := n, calPolls := 0 }
    | some (Wait.done n) =>
      let m := m.present (.CTL eadc) (ctlAt (n - 1))
      let u32ClkSel0Backup := m.rd .CLKSEL0
      let u32PclkDivBackup := m.rd .PCLKDIV
      let u32RegLockBackup := SYS_IsRegLocked m
      let m := SYS_UnlockReg m
      let u32ClkDivBackup := (EADC_Open_slowClock L eadc m).1
      let m := (EADC_Open_slowClock L eadc m).2
      let m := m.wr L .PCLKDIV (m.rd .PCLKDIV &&& not32 L.CLK_PCLKDIV_APB1DIV_Msk)
      let m := m.wr L (.CALSR eadc) (m.rd (.CALSR eadc) ||| L.EADC_CALSR_CALIF_Msk)
      let m := m.wr L (.CALCTL eadc) ((m.rd (.CALCTL eadc) &&& not32 0x000F0000) ||| 0x00020000)
      let m := m.wr L (.CALCTL eadc) (m.rd (.CALCTL eadc) ||| L.EADC_CALCTL_CAL_Msk)
      let u32Delay := (SystemCoreClock % 4294967296) >>> 4
      let calsrAt := fun k => hwBit L.EADC_CALSR_CALIF_Msk (hw.CALIF k) (m.rd (.CALSR eadc))
      match busyWait
          (fun k => decide ((calsrAt k &&& L.EADC_CALSR_CALIF_Msk) ≠ L.EADC_CALSR_CALIF_Msk))
          4294967296 0 u32Delay with
      | none => none
      | some (Wait.expired c) =>
        let m := m.present (.CALSR eadc) (calsrAt (c - 1))
        some { ret := L.EADC_CAL_ERR, regs := m.regs, log := m.log,
               resetPolls := n, calPolls := c }
      | some (Wait.done c) =>
        let m := m.present (.CALSR eadc) (calsrAt (c - 1))
        let m := m.wr L .PCLKDIV u32PclkDivBackup
        let m := m.wr L .CLKSEL0 u32ClkSel0Backup
        let m := EADC_Open_restoreDiv L eadc u32ClkDivBackup m
        let m := if u32RegLockBackup ≠ 0 then SYS_LockReg m else m
        some { ret := EADC_Open_clockCheck L eadc m.regs, regs := m.regs, log := m.log,
               resetPolls := n, calPolls := c }
  else
    some { ret := EADC_Open_clockCheck L eadc m.regs, regs := m.regs, log := m.log,
           resetPolls := 0, calPolls := 0 }

/-! ## Vocabulary of the statements -/

/-- The divider register of a unit: `CLKDIV0` / `CLKDIV2` / `CLKDIV5`. -/
def divReg : EADC_T → Reg
  | .EADC0 => .CLKDIV0
  | .EADC1 => .CLKDIV2
  | .EADC2 => .CLKDIV5

/-- Number of polls after which a countdown started at `u32Delay` expires: `u32Delay`
itself, or `2^32` when it starts at 0 (the first pre-decrement wraps around). -/
def countdown (u32Delay : Nat) : Nat :=
  if u32Delay = 0 then 4294967296 else u32Delay

/-- Number of polls a wait of `EADC_Open` makes before it gives up, for a given
`SystemCoreClock`: the countdown starts at `SystemCoreClock >> 4`. -/
def pollBudget (SystemCoreClock : Nat) : Nat :=
  countdown ((SystemCoreClock % 4294967296) >>> 4)

/-- The mask of a unit's divider field: `EADC0DIV` / `EADC1DIV` / `EADC2DIV`. -/
def divMsk (L : Layout) : EADC_T → Nat
  | .EADC0 => L.CLK_CLKDIV0_EADC0DIV_Msk
  | .EADC1 => L.CLK_CLKDIV2_EADC1DIV_Msk
  | .EADC2 => L.CLK_CLKDIV5_EADC2DIV_Msk

/-- The position of a unit's divider field. -/
def divPos (L : Layout) : EADC_T → Nat
  | .EADC0 => L.CLK_CLKDIV0_EADC0DIV_Pos
  | .EADC1 => L.CLK_CLKDIV2_EADC1DIV_Pos
  | .EADC2 => L.CLK_CLKDIV5_EADC2DIV_Pos

/-- The mask of a unit's clock-source field in `CLKSEL0`. -/
def selMsk (L : Layout) : EADC_T → Nat
  | .EADC0 => L.CLK_CLKSEL0_EADC0SEL_Msk
  | .EADC1 => L.CLK_CLKSEL0_EADC1SEL_Msk
  | .EADC2 => L.CLK_CLKSEL0_EADC2SEL_Msk

/-- The `HCLK` selection of a unit's clock-source field. -/
def selHCLK (L : Layout) : EADC_T → Nat
  | .EADC0 => L.CLK_CLKSEL0_EADC0SEL_HCLK
  | .EADC1 => L.CLK_CLKSEL0_EADC1SEL_HCLK
  | .EADC2 => L.CLK_CLKSEL0_EADC2SEL_HCLK

/-- The flag `CALIF` of the unit reads as clear in the register file. -/
def califClear (L : Layout) (eadc : EADC_T) (s : Regs) : Prop :=
  (s.reg (.CALSR eadc) &&& L.EADC_CALSR_CALIF_Msk) = 0

/-- The reset completes within its budget: some poll of the reset wait, made before
the countdown expires, reads the reset-request bit as clear. -/
def resetCompletes (SystemCoreClock : Nat) (hw : Hardware) : Prop :=
  ∃ k, k < pollBudget SystemCoreClock ∧ hw.ADCRST k = false

/-- The calibration-finished flag is observed set within the calibration budget. -/
def calObserved (SystemCoreClock : Nat) (hw : Hardware) : Prop :=
  ∃ k, k < pollBudget SystemCoreClock ∧ hw.CALIF k = true

/-- The value of `CTL` after lines 43-45: `DIFFEN` cleared, then the input mode and
`ADCEN` set. -/
def ctlCommitted (L : Layout) (u32InputMode : Nat) (ctl : Nat) : Nat :=
  (ctl &&& not32 L.EADC_CTL_DIFFEN_Msk) ||| (u32InputMode ||| L.EADC_CTL_ADCEN_Msk)

/-- The stores of lines 43-92 in program order: the mode and enable bits, the reset
request, the unlock, the slow-clock reprogramming and the calibration start. -/
def calibrationStores (L : Layout) (eadc : EADC_T) (u32InputMode : Nat) (s : Regs) :
    List Event :=
  [ Event.write (.CTL eadc) (s.reg (.CTL eadc) &&& not32 L.EADC_CTL_DIFFEN_Msk),
    Event.write (.CTL eadc) (ctlCommitted L u32InputMode (s.reg (.CTL eadc))),
    Event.write (.CTL eadc)
      (ctlCommitted L u32InputMode (s.reg (.CTL eadc)) ||| L.EADC_CTL_ADCRST_Msk),
    Event.unlockReg,
    Event.write (divReg eadc)
      ((s.reg (divReg eadc) &&& not32 (divMsk L eadc)) ||| (2 <<< divPos L eadc)),
    Event.write .CLKSEL0 ((s.reg .CLKSEL0 &&& not32 (selMsk L eadc)) ||| selHCLK L eadc),
    Event.write .PCLKDIV (s.reg .PCLKDIV &&& not32 L.CLK_PCLKDIV_APB1DIV_Msk),
    Event.write (.CALSR eadc) (s.reg (.CALSR eadc) ||| L.EADC_CALSR_CALIF_Msk),
    Event.write (.CALCTL eadc) ((s.reg (.CALCTL eadc) &&& not32 0x000F0000) ||| 0x00020000),
    Event.write (.CALCTL eadc)
      (((s.reg (.CALCTL eadc) &&& not32 0x000F0000) ||| 0x00020000) ||| L.EADC_CALCTL_CAL_Msk) ]

/-- The peripheral-bus divider field `PCLKDIV.APB1DIV` as the clock check reads it. -/
def apb1Div (L : Layout) (s : Regs) : Nat :=
  (s.reg .PCLKDIV &&& L.CLK_PCLKDIV_APB1DIV_Msk) >>> L.CLK_PCLKDIV_APB1DIV_Pos

/-- The unit's own divider field (`EADC0DIV` / `EADC1DIV` / `EADC2DIV`) as the clock
check reads it. -/
def unitDiv (L : Layout) (eadc : EADC_T) (s : Regs) : Nat :=
  (s.reg (divReg eadc) &&& divMsk L eadc) >>> divPos L eadc

/-- The input modes the documentation of `EADC_Open` lists. -/
def validMode (L : Layout) (u32InputMode : Nat) : Prop :=
  u32InputMode = L.EADC_CTL_DIFFEN_SINGLE_END ∨ u32InputMode = L.EADC_CTL_DIFFEN_DIFFERENTIAL

/-- Sanity of a register layout: the two polled status masks are not empty, the
fields of `CTL` are 32-bit and do not overlap, the two input modes are the two
values of the `DIFFEN` field, the clock-source fields of the three units in `CLKSEL0`
are 32-bit and do not overlap, and the return codes are distinct and nonzero. -/
structure Layout.WellFormed (L : Layout) : Prop where
  adcrst_ne : L.EADC_CTL_ADCRST_Msk ≠ 0
  calif_ne : L.EADC_CALSR_CALIF_Msk ≠ 0
  adcen_lt : L.EADC_CTL_ADCEN_Msk < 4294967296
  adcrst_lt : L.EADC_CTL_ADCRST_Msk < 4294967296
  diffen_lt : L.EADC_CTL_DIFFEN_Msk < 4294967296
  adcen_adcrst : L.EADC_CTL_ADCEN_Msk &&& L.EADC_CTL_ADCRST_Msk = 0
  diffen_adcen : L.EADC_CTL_DIFFEN_Msk &&& L.EADC_CTL_ADCEN_Msk = 0
  diffen_adcrst : L.EADC_CTL_DIFFEN_Msk &&& L.EADC_CTL_ADCRST_Msk = 0
  single_end : L.EADC_CTL_DIFFEN_SINGLE_END = 0
  differential : L.EADC_CTL_DIFFEN_DIFFERENTIAL = L.EADC_CTL_DIFFEN_Msk
  sel_lt : ∀ u, selMsk L u < 4294967296
  sel_disjoint : ∀ u v, u ≠ v → selMsk L u &&& selMsk L v = 0
  hclk_disjoint : ∀ u v, u ≠ v → selHCLK L u &&& selMsk L v = 0
  timeout_ne_zero : L.EADC_TIMEOUT_ERR ≠ 0
  cal_ne_zero : L.EADC_CAL_ERR ≠ 0
  clkdiv_ne_zero : L.EADC_CLKDIV_ERR ≠ 0
  timeout_ne_cal : L.EADC_TIMEOUT_ERR ≠ L.EADC_CAL_ERR
  timeout_ne_clkdiv : L.EADC_TIMEOUT_ERR ≠ L.EADC_CLKDIV_ERR
  cal_ne_clkdiv : L.EADC_CAL_ERR ≠ L.EADC_CLKDIV_ERR

/-! ## Concrete inputs -/

/-- A register file after power-on in which no unit is calibrated: every register
reads 0 except `PCLKDIV = 0x10` (`APB1DIV = 1`); the lock is engaged. -/
def coldRegs : Regs where
  reg := fun r => match r with
    | .PCLKDIV => 0x10
    | _ => 0
  locked := true

/-- A register file in which `EADC0` is already calibrated (`CALIF` set in its
`CALSR`), `PCLKDIV = 0x10` (`APB1DIV = 1`), `CTL` of `EADC0` is `0x100` and every
other register reads 0; the lock is engaged. -/
def warmRegs : Regs where
  reg := fun r => match r with
    | .PCLKDIV => 0x10
    | .CALSR .EADC0 => 0x10000
    | .CTL .EADC0 => 0x100
    | _ => 0
  locked := true

/-- Hardware that ends the reset at once and never finishes a calibration. -/
def hwCalNever : Hardware where
  ADCRST := fun _ => false
  CALIF := fun _ => false

/-- Hardware that never ends the reset. -/
def hwResetNever : Hardware where
  ADCRST := fun _ => true
  CALIF := fun _ => true

/-- Hardware that ends the reset at the second poll and reports the calibration
finished at the second poll. -/
def hwGood : Hardware where
  ADCRST := fun k => decide (k < 1)
  CALIF := fun k => decide (1 ≤ k)

/-- The result of calibrating `EADC0` on `coldRegs` with `hwGood`, in single-end
mode, at `SystemCoreClock = 200000000`. -/
def firstResult : Result :=
  (EADC_Open m460 200000000 hwGood .EADC0 0 coldRegs).getD
    { ret := 0, regs := coldRegs, log := [], resetPolls := 0, calPolls := 0 }

/-! ## The register file at the calibration trigger -/

/-- Further sanity of a register layout: the divider value 2 that line 73 (79, 85)
programs lies inside the unit's divider field, and the `HCLK` selection of a unit
lies inside the unit's clock-source field. -/
structure Layout.ClockFields (L : Layout) : Prop where
  div_fits : ∀ u, (2 <<< divPos L u) &&& divMsk L u = 2 <<< divPos L u
  hclk_fits : ∀ u, selHCLK L u &&& selMsk L u = selHCLK L u

/-- The effect of one logged event on the register file. -/
def Regs.step (L : Layout) (s : Regs) : Event → Regs
  | .write r v => s.write L r v
  | .unlockReg => { s with locked := false }
  | .lockReg => { s with locked := true }

/-- The register file reached from `s` by the events of a log, in order. -/
def Regs.replay (L : Layout) (s : Regs) (log : List Event) : Regs :=
  log.foldl (Regs.step L) s

/-- The clock configuration of a register file `t` is the one that calibration of
`eadc` runs under, relative to the pre-call register file `s`: lock disengaged,
the unit's divider field 2, the unit's clock source `HCLK`, `APB1DIV` 0, and every
other bit of the unit's divider register, of `CLKSEL0` and of `PCLKDIV` as in `s`. -/
def calibrationClocks (L : Layout) (eadc : EADC_T) (s t : Regs) : Prop :=
  t.locked = false ∧
  unitDiv L eadc t = 2 ∧
  t.reg .CLKSEL0 &&& selMsk L eadc = selHCLK L eadc ∧
  apb1Div L t = 0 ∧
  t.reg (divReg eadc) &&& not32 (divMsk L eadc) =
    s.reg (divReg eadc) &&& not32 (divMsk L eadc) ∧
  t.reg .CLKSEL0 &&& not32 (selMsk L eadc) = s.reg .CLKSEL0 &&& not32 (selMsk L eadc) ∧
  t.reg .PCLKDIV &&& not32 L.CLK_PCLKDIV_APB1DIV_Msk =
    s.reg .PCLKDIV &&& not32 L.CLK_PCLKDIV_APB1DIV_Msk

/-- The store of line 92 that sets the calibration-trigger bit `CAL` in `CALCTL`. -/
def triggerStore (L : Layout) (eadc : EADC_T) (s : Regs) : Event :=
  Event.write (.CALCTL eadc)
    (((s.reg (.CALCTL eadc) &&& not32 0x000F0000) ||| 0x00020000) ||| L.EADC_CALCTL_CAL_Msk)

/-! ## The sample-module setters -/

/-- Constants of the sample-module control registers `SCTL[n]` that `eadc.c` takes
from `NuMicro.h`.  The header is not part of the sources, so the setters are
embedded over an arbitrary layout; every field carries the name of the macro it
stands for. -/
structure SctlLayout where
  EADC_SCTL_CHSEL_Msk : Nat
  EADC_SCTL_EXTREN_Msk : Nat
  EADC_SCTL_EXTFEN_Msk : Nat
  EADC_SCTL_TRGDLYDIV_Msk : Nat
  EADC_SCTL_TRGDLYCNT_Msk : Nat
  EADC_SCTL_TRGDLYCNT_Pos : Nat
  EADC_SCTL_TRGSEL_Msk : Nat
  EADC_SCTL_EXTSMPT_Msk : Nat
  EADC_SCTL_EXTSMPT_Pos : Nat
  EADC_SCTL_TRGDLYDIV_DIVIDER_1 : Nat
  EADC_SCTL_TRGDLYDIV_DIVIDER_2 : Nat
  EADC_SCTL_TRGDLYDIV_DIVIDER_4 : Nat
  EADC_SCTL_TRGDLYDIV_DIVIDER_16 : Nat

/-- Modelled from the spec: the layout of `SCTL[n]` on the target chip family ("bit
masks and positions are part of the vendor's published register layout"); the
header `NuMicro.h` that defines it is missing from the sources.  `TRGDLYCNT` at bits
15:8 and `TRGDLYDIV` at bits 7:6 are as the comment of `EADC_SetTriggerDelayTime`
documents them.  This instance is the concrete layout at which the general results
are instantiated. -/
def m460Sctl : SctlLayout where
  EADC_SCTL_CHSEL_Msk := 0xF
  EADC_SCTL_EXTREN_Msk := 0x10
  EADC_SCTL_EXTFEN_Msk := 0x20
  EADC_SCTL_TRGDLYDIV_Msk := 0xC0
  EADC_SCTL_TRGDLYCNT_Msk := 0xFF00
  EADC_SCTL_TRGDLYCNT_Pos := 8
  EADC_SCTL_TRGSEL_Msk := 0x1F0000
  EADC_SCTL_EXTSMPT_Msk := 0xFF000000
  EADC_SCTL_EXTSMPT_Pos := 24
  EADC_SCTL_TRGDLYDIV_DIVIDER_1 := 0x00
  EADC_SCTL_TRGDLYDIV_DIVIDER_2 := 0x40
  EADC_SCTL_TRGDLYDIV_DIVIDER_4 := 0x80
  EADC_SCTL_TRGDLYDIV_DIVIDER_16 := 0xC0

/-- The store `eadc->SCTL[n] = v` on the arrays `SCTL` of the converters; `sctl eadc n`
is the content of `eadc->SCTL[n]`. -/
def SCTL_store (sctl : EADC_T → Nat → Nat) (eadc : EADC_T) (n v : Nat) : EADC_T → Nat → Nat :=
  fun e m => if e = eadc ∧ m = n then v else sctl e m

/-- The routine `EADC_ConfigSampleModule(eadc, u32ModuleNum, u32TriggerSrc, u32Channel)`
(lines 199-206) run on the arrays `sctl`: one `let` per statement. -/
def EADC_ConfigSampleModule (L : SctlLayout) (eadc : EADC_T)
    (u32ModuleNum u32TriggerSrc u32Channel : Nat) (sctl : EADC_T → Nat → Nat) :
    EADC_T → Nat → Nat :=
  let sctl := SCTL_store sctl eadc u32ModuleNum
    (sctl eadc u32ModuleNum &&&
      not32 (L.EADC_SCTL_EXTFEN_Msk ||| L.EADC_SCTL_EXTREN_Msk ||| L.EADC_SCTL_TRGSEL_Msk |||
        L.EADC_SCTL_CHSEL_Msk))
  let sctl := SCTL_store sctl eadc u32ModuleNum
    (sctl eadc u32ModuleNum ||| (u32TriggerSrc ||| u32Channel))
  sctl

/-- The routine `EADC_SetTriggerDelayTime(eadc, u32ModuleNum, u32TriggerDelayTime,
u32DelayClockDivider)` (lines 223-230) run on the arrays `sctl`; the left shift is a
shift of a 32-bit word. -/
def EADC_SetTriggerDelayTime (L : SctlLayout) (eadc : EADC_T)
    (u32ModuleNum u32TriggerDelayTime u32DelayClockDivider : Nat)
    (sctl : EADC_T → Nat → Nat) : EADC_T → Nat → Nat :=
  let sctl := SCTL_store sctl eadc u32ModuleNum
    (sctl eadc u32ModuleNum &&&
      not32 (L.EADC_SCTL_TRGDLYDIV_Msk ||| L.EADC_SCTL_TRGDLYCNT_Msk))
  let sctl := SCTL_store sctl eadc u32ModuleNum
    (sctl eadc u32ModuleNum |||
      (((u32TriggerDelayTime <<< L.EADC_SCTL_TRGDLYCNT_Pos) % 4294967296) |||
        u32DelayClockDivider))
  sctl

/-- The routine `EADC_SetExtendSampleTime(eadc, u32ModuleNum, u32ExtendSampleTime)`
(lines 241-247) run on the arrays `sctl`; the left shift is a shift of a 32-bit
word. -/
def EADC_SetExtendSampleTime (L : SctlLayout) (eadc : EADC_T)
    (u32ModuleNum u32ExtendSampleTime : Nat) (sctl : EADC_T → Nat → Nat) :
    EADC_T → Nat → Nat :=
  let sctl := SCTL_store sctl eadc u32ModuleNum
    (sctl eadc u32ModuleNum &&& not32 L.EADC_SCTL_EXTSMPT_Msk)
  let sctl := SCTL_store sctl eadc u32ModuleNum
    (sctl eadc u32ModuleNum |||
      ((u32ExtendSampleTime <<< L.EADC_SCTL_EXTSMPT_Pos) % 4294967296))
  sctl

/-- The fields `EADC_ConfigSampleModule` clears and rewrites. -/
def cfgMsk (L : SctlLayout) : Nat :=
  L.EADC_SCTL_EXTFEN_Msk ||| L.EADC_SCTL_EXTREN_Msk ||| L.EADC_SCTL_TRGSEL_Msk |||
    L.EADC_SCTL_CHSEL_Msk

/-- The trigger-selection and edge-enable fields. -/
def trgMsk (L : SctlLayout) : Nat :=
  L.EADC_SCTL_EXTFEN_Msk ||| L.EADC_SCTL_EXTREN_Msk ||| L.EADC_SCTL_TRGSEL_Msk

/-- The fields `EADC_SetTriggerDelayTime` clears and rewrites. -/
def dlyMsk (L : SctlLayout) : Nat :=
  L.EADC_SCTL_TRGDLYDIV_Msk ||| L.EADC_SCTL_TRGDLYCNT_Msk

/-- A trigger source as documented for `EADC_ConfigSampleModule`: a value of the
`EXTFEN`, `EXTREN` and `TRGSEL` fields. -/
def validTrigger (L : SctlLayout) (u32TriggerSrc : Nat) : Prop :=
  u32TriggerSrc &&& trgMsk L = u32TriggerSrc

/-- The four delay clock dividers documented for `EADC_SetTriggerDelayTime`. -/
def validDivider (L : SctlLayout) (u32DelayClockDivider : Nat) : Prop :=
  u32DelayClockDivider = L.EADC_SCTL_TRGDLYDIV_DIVIDER_1 ∨
  u32DelayClockDivider = L.EADC_SCTL_TRGDLYDIV_DIVIDER_2 ∨
  u32DelayClockDivider = L.EADC_SCTL_TRGDLYDIV_DIVIDER_4 ∨
  u32DelayClockDivider = L.EADC_SCTL_TRGDLYDIV_DIVIDER_16

/-- Sanity of an `SCTL` layout: the three groups of fields written by the three
setters are 32-bit and pairwise disjoint; inside a group the trigger fields do not
overlap `CHSEL` and `TRGDLYDIV` does not overlap `TRGDLYCNT`; `CHSEL` holds the
channels 0..15; `TRGDLYCNT` is the byte at bits 15:8 and `TRGDLYDIV` the two bits
7:6, as the comment of `EADC_SetTriggerDelayTime` documents; `EXTSMPT` is the byte
at bits 31:24; the four divider values are values of the field `TRGDLYDIV`. -/
structure SctlLayout.WellFormed (L : SctlLayout) : Prop where
  cfg_lt : cfgMsk L < 4294967296
  dly_lt : dlyMsk L < 4294967296
  ext_lt : L.EADC_SCTL_EXTSMPT_Msk < 4294967296
  cfg_dly : cfgMsk L &&& dlyMsk L = 0
  cfg_ext : cfgMsk L &&& L.EADC_SCTL_EXTSMPT_Msk = 0
  dly_ext : dlyMsk L &&& L.EADC_SCTL_EXTSMPT_Msk = 0
  trg_chsel : trgMsk L &&& L.EADC_SCTL_CHSEL_Msk = 0
  div_cnt : L.EADC_SCTL_TRGDLYDIV_Msk &&& L.EADC_SCTL_TRGDLYCNT_Msk = 0
  chsel_nibble : 15 &&& L.EADC_SCTL_CHSEL_Msk = 15
  trgdlycnt_pos : L.EADC_SCTL_TRGDLYCNT_Pos = 8
  trgdlycnt_msk : L.EADC_SCTL_TRGDLYCNT_Msk = 255 <<< L.EADC_SCTL_TRGDLYCNT_Pos
  trgdlydiv_msk : L.EADC_SCTL_TRGDLYDIV_Msk = 3 <<< 6
  extsmpt_pos : L.EADC_SCTL_EXTSMPT_Pos = 24
  extsmpt_msk : L.EADC_SCTL_EXTSMPT_Msk = 255 <<< L.EADC_SCTL_EXTSMPT_Pos
  divider_1 : L.EADC_SCTL_TRGDLYDIV_DIVIDER_1 &&& L.EADC_SCTL_TRGDLYDIV_Msk =
    L.EADC_SCTL_TRGDLYDIV_DIVIDER_1
  divider_2 : L.EADC_SCTL_TRGDLYDIV_DIVIDER_2 &&& L.EADC_SCTL_TRGDLYDIV_Msk =
    L.EADC_SCTL_TRGDLYDIV_DIVIDER_2
  divider_4 : L.EADC_SCTL_TRGDLYDIV_DIVIDER_4 &&& L.EADC_SCTL_TRGDLYDIV_Msk =
    L.EADC_SCTL_TRGDLYDIV_DIVIDER_4
  divider_16 : L.EADC_SCTL_TRGDLYDIV_DIVIDER_16 &&& L.EADC_SCTL_TRGDLYDIV_Msk =
    L.EADC_SCTL_TRGDLYDIV_DIVIDER_16

/-- Arrays `SCTL` in which `EADC1->SCTL[3]` holds `0xA5B6C7D8` and every other entry
holds `0xFFFFFFFF`. -/
def busySctl : EADC_T → Nat → Nat :=
  fun e m => if e = .EADC1 ∧ m = 3 then 0xA5B6C7D8 else 0xFFFFFFFF

/-! ## Machine words -/

theorem testBit_not32 (x i : Nat) :
    (not32 x).testBit i = (decide (i < 32) && !x.testBit i) := by
  have h : (4294967295 : Nat) = 2 ^ 32 - 1 := by norm_num
  have h2 : (4294967296 : Nat) = 2 ^ 32 := by norm_num
  unfold not32
  rw [h, h2, Nat.testBit_xor, Nat.testBit_two_pow_sub_one, Nat.testBit_mod_two_pow]
  by_cases hi : i < 32 <;> simp [hi]

theorem or_and_msk (v msk : Nat) : (v ||| msk) &&& msk = msk := by
  apply Nat.eq_of_testBit_eq
  intro i
  simp only [Nat.testBit_and, Nat.testBit_or]
  cases v.testBit i <;> cases msk.testBit i <;> rfl

theorem andnot_and_msk (v msk : Nat) : (v &&& not32 msk) &&& msk = 0 := by
  apply Nat.eq_of_testBit_eq
  intro i
  simp only [Nat.testBit_and, testBit_not32, Nat.zero_testBit]
  cases v.testBit i <;> cases msk.testBit i <;> simp

theorem hwBit_and_msk (msk : Nat) (b : Bool) (v : Nat) (hm : msk ≠ 0) :
    (hwBit msk b v &&& msk = msk) ↔ b = true := by
  cases b
  · simp only [hwBit, Bool.false_eq_true, if_false, andnot_and_msk, iff_false]
    exact fun h => hm h.symm
  · simp [hwBit, or_and_msk]

/-! ## The bounded waits -/

theorem countdown_pos (d : Nat) : 0 < countdown d := by
  unfold countdown
  split <;> omega

theorem busyWait_some (cond : Nat → Bool) :
    ∀ fuel k d, d < 4294967296 → countdown d ≤ fuel → ∃ w, busyWait cond fuel k d = some w := by
  intro fuel
  induction fuel with
  | zero =>
    intro k d _ h
    have := countdown_pos d
    omega
  | succ fuel ih =>
    intro k d hd h
    unfold busyWait
    by_cases hc : cond k = true
    · simp only [hc, if_true]
      by_cases hz : (d + 4294967295) % 4294967296 = 0
      · simp [hz]
      · simp only [hz, if_false]
        apply ih
        · omega
        · unfold countdown at h ⊢
          split at h <;> split <;> omega
    · simp [hc]

theorem busyWait_expired (cond : Nat → Bool) :
    ∀ fuel k d n, d < 4294967296 → busyWait cond fuel k d = some (Wait.expired n) →
      n = k + countdown d ∧ ∀ j, k ≤ j → j < n → cond j = true := by
  intro fuel
  induction fuel with
  | zero => intro k d n _ h; simp [busyWait] at h
  | succ fuel ih =>
    intro k d n hd h
    unfold busyWait at h
    by_cases hc : cond k = true
    · simp only [hc, if_true] at h
      by_cases hz : (d + 4294967295) % 4294967296 = 0
      · simp only [hz, if_true, Option.some.injEq, Wait.expired.injEq] at h
        have hd1 : d = 1 := by omega
        subst hd1
        subst h
        refine ⟨by simp [countdown], ?_⟩
        intro j h1 h2
        have : j = k := by omega
        rw [this]; exact hc
      · simp only [hz, if_false] at h
        obtain ⟨h1, h2⟩ := ih (k + 1) _ n (by omega) h
        refine ⟨?_, ?_⟩
        · rw [h1]
          unfold countdown
          split <;> split <;> omega
        · intro j hj1 hj2
          by_cases hjk : j = k
          · rw [hjk]; exact hc
          · exact h2 j (by omega) hj2
    · simp [hc] at h

theorem busyWait_done (cond : Nat → Bool) :
    ∀ fuel k d n, d < 4294967296 → busyWait cond fuel k d = some (Wait.done n) →
      k < n ∧ n ≤ k + countdown d ∧ cond (n - 1) = false ∧
        ∀ j, k ≤ j → j < n - 1 → cond j = true := by
  intro fuel
  induction fuel with
  | zero => intro k d n _ h; simp [busyWait] at h
  | succ fuel ih =>
    intro k d n hd h
    unfold busyWait at h
    by_cases hc : cond k = true
    · simp only [hc, if_true] at h
      by_cases hz : (d + 4294967295) % 4294967296 = 0
      · simp [hz] at h
      · simp only [hz, if_false] at h
        obtain ⟨h1, h2, h3, h4⟩ := ih (k + 1) _ n (by omega) h
        refine ⟨by omega, ?_, h3, ?_⟩
        · have : countdown ((d + 4294967295) % 4294967296) + 1 = countdown d := by
            unfold countdown
            split <;> split <;> omega
          omega
        · intro j hj1 hj2
          by_cases hjk : j = k
          · rw [hjk]; exact hc
          · exact h4 j (by omega) hj2
    · simp only [hc, Bool.false_eq_true, if_false, Option.some.injEq, Wait.done.injEq] at h
      subst h
      have := countdown_pos d
      refine ⟨by omega, by omega, ?_, ?_⟩
      · simpa using hc
      · intro j h1 h2
        omega

theorem busyWait_eq_expired (cond : Nat → Bool) (d : Nat) (hd : d < 4294967296)
    (h : ∀ j, j < countdown d → cond j = true) :
    busyWait cond 4294967296 0 d = some (Wait.expired (countdown d)) := by
  have hle : countdown d ≤ 4294967296 := by unfold countdown; split <;> omega
  obtain ⟨w, hw⟩ := busyWait_some cond 4294967296 0 d hd hle
  cases w with
  | done n =>
    obtain ⟨h1, h2, h3, _⟩ := busyWait_done cond _ _ _ _ hd hw
    have := h (n - 1) (by omega)
    rw [h3] at this
    exact absurd this (by simp)
  | expired n =>
    obtain ⟨h1, _⟩ := busyWait_expired cond _ _ _ _ hd hw
    rw [hw, h1, Nat.zero_add]

theorem busyWait_eq_done (cond : Nat → Bool) (d : Nat) (hd : d < 4294967296)
    (h : ∃ j, j < countdown d ∧ cond j = false) :
    ∃ n, busyWait cond 4294967296 0 d = some (Wait.done n) ∧ 0 < n ∧ n ≤ countdown d ∧
      cond (n - 1) = false ∧ ∀ j, j < n - 1 → cond j = true := by
  have hle : countdown d ≤ 4294967296 := by unfold countdown; split <;> omega
  obtain ⟨w, hw⟩ := busyWait_some cond 4294967296 0 d hd hle
  cases w with
  | done n =>
    obtain ⟨h1, h2, h3, h4⟩ := busyWait_done cond _ _ _ _ hd hw
    exact ⟨n, hw, h1, by omega, h3, fun j hj => h4 j (Nat.zero_le _) hj⟩
  | expired n =>
    obtain ⟨h1, h2⟩ := busyWait_expired cond _ _ _ _ hd hw
    obtain ⟨j, hj1, hj2⟩ := h
    have := h2 j (Nat.zero_le _) (by omega)
    rw [hj2] at this
    exact absurd this (by simp)

theorem delay_lt (clk : Nat) : (clk % 4294967296) >>> 4 < 4294967296 := by
  rw [Nat.shiftRight_eq_div_pow]
  have : clk % 4294967296 < 4294967296 := Nat.mod_lt _ (by norm_num)
  have h2 : clk % 4294967296 / 2 ^ 4 ≤ clk % 4294967296 := Nat.div_le_self _ _
  omega

/-! ## The four paths of `EADC_Open` -/

/-- Path "already calibrated": `CALIF` reads as set at line 48. -/
theorem EADC_Open_warm (L : Layout) (clk : Nat) (hw : Hardware) (eadc : EADC_T) (mode : Nat)
    (s : Regs) (h : ¬ califClear L eadc s) :
    EADC_Open L clk hw eadc mode s = some
      { ret := EADC_Open_clockCheck L eadc
          (s.set (.CTL eadc) (ctlCommitted L mode (s.reg (.CTL eadc)))),
        regs := s.set (.CTL eadc) (ctlCommitted L mode (s.reg (.CTL eadc))),
        log := [Event.write (.CTL eadc) (s.reg (.CTL eadc) &&& not32 L.EADC_CTL_DIFFEN_Msk),
                Event.write (.CTL eadc) (ctlCommitted L mode (s.reg (.CTL eadc)))],
        resetPolls := 0, calPolls := 0 } := by
  unfold califClear at h
  unfold EADC_Open
  simp [Mach.rd, Mach.wr, Regs.write, Regs.set, h, ctlCommitted]

/-- Path "reset timeout": every poll of the reset wait reads `ADCRST` as set. -/
theorem EADC_Open_timeout (L : Layout) (clk : Nat) (hw : Hardware) (eadc : EADC_T) (mode : Nat)
    (s : Regs) (hM : L.EADC_CTL_ADCRST_Msk ≠ 0) (h : califClear L eadc s)
    (hr : ¬ resetCompletes clk hw) :
    EADC_Open L clk hw eadc mode s = some
      { ret := L.EADC_TIMEOUT_ERR,
        regs := s.set (.CTL eadc)
          (ctlCommitted L mode (s.reg (.CTL eadc)) ||| L.EADC_CTL_ADCRST_Msk),
        log := [Event.write (.CTL eadc) (s.reg (.CTL eadc) &&& not32 L.EADC_CTL_DIFFEN_Msk),
                Event.write (.CTL eadc) (ctlCommitted L mode (s.reg (.CTL eadc))),
                Event.write (.CTL eadc)
                  (ctlCommitted L mode (s.reg (.CTL eadc)) ||| L.EADC_CTL_ADCRST_Msk)],
        resetPolls := pollBudget clk, calPolls := 0 } := by
  unfold califClear at h
  have hbw : busyWait (fun k => decide (hw.ADCRST k = true)) 4294967296 0
      ((clk % 4294967296) >>> 4) = some (Wait.expired (pollBudget clk)) := by
    apply busyWait_eq_expired _ _ (delay_lt clk)
    intro j hj
    by_contra hc
    exact hr ⟨j, hj, by simpa using hc⟩
  have hpos := countdown_pos ((clk % 4294967296) >>> 4)
  have hlast : hw.ADCRST (pollBudget clk - 1) = true := by
    by_contra hc
    exact hr ⟨pollBudget clk - 1, by unfold pollBudget; omega, by simpa using hc⟩
  unfold EADC_Open
  simp only [Mach.rd, Mach.wr, Regs.write, Regs.set, Function.update_same, Function.update_idem]
  simp only [hwBit_and_msk _ _ _ hM, hbw]
  simp [h, Mach.present, Regs.set, hwBit, hlast, ctlCommitted, Nat.or_assoc]

/-- Path "calibration error": the reset completes, no poll of the calibration wait
reads `CALIF` as set. -/
theorem EADC_Open_calErr (L : Layout) (clk : Nat) (hw : Hardware) (eadc : EADC_T) (mode : Nat)
    (s : Regs) (hM : L.EADC_CTL_ADCRST_Msk ≠ 0) (hC : L.EADC_CALSR_CALIF_Msk ≠ 0)
    (h : califClear L eadc s) (hr : resetCompletes clk hw) (hc : ¬ calObserved clk hw) :
    ∃ res, EADC_Open L clk hw eadc mode s = some res ∧
      res.ret = L.EADC_CAL_ERR ∧
      res.log = calibrationStores L eadc mode s ∧
      res.regs.locked = false ∧
      res.regs.reg (.CTL eadc) =
        (ctlCommitted L mode (s.reg (.CTL eadc)) ||| L.EADC_CTL_ADCRST_Msk) &&&
          not32 L.EADC_CTL_ADCRST_Msk ∧
      res.regs.reg (divReg eadc) =
        ((s.reg (divReg eadc) &&& not32 (divMsk L eadc)) ||| (2 <<< divPos L eadc)) ∧
      res.regs.reg .CLKSEL0 =
        ((s.reg .CLKSEL0 &&& not32 (selMsk L eadc)) ||| selHCLK L eadc) ∧
      res.regs.reg .PCLKDIV = (s.reg .PCLKDIV &&& not32 L.CLK_PCLKDIV_APB1DIV_Msk) ∧
      (res.regs.reg (.CALSR eadc) &&& L.EADC_CALSR_CALIF_Msk) = 0 ∧
      res.regs.reg (.CALCTL eadc) =
        (((s.reg (.CALCTL eadc) &&& not32 0x000F0000) ||| 0x00020000) |||
          L.EADC_CALCTL_CAL_Msk) ∧
      (∀ r, r ≠ .CTL eadc → r ≠ divReg eadc → r ≠ .CLKSEL0 → r ≠ .PCLKDIV →
        r ≠ .CALSR eadc → r ≠ .CALCTL eadc → res.regs.reg r = s.reg r) ∧
      0 < res.resetPolls ∧ res.resetPolls ≤ pollBudget clk ∧
      hw.ADCRST (res.resetPolls - 1) = false ∧
      (∀ j, j < res.resetPolls - 1 → hw.ADCRST j = true) ∧
      res.calPolls = pollBudget clk := by
  unfold califClear at h
  obtain ⟨n, hbw, hn0, hn1, hn2, hn3⟩ :=
    busyWait_eq_done (fun k => decide (hw.ADCRST k = true))
      ((clk % 4294967296) >>> 4) (delay_lt clk) (by
        obtain ⟨k, hk1, hk2⟩ := hr
        exact ⟨k, hk1, by simp [hk2]⟩)
  have hn2 : hw.ADCRST (n - 1) = false := by simpa using hn2
  have hn3 : ∀ j, j < n - 1 → hw.ADCRST j = true := fun j hj => by simpa using hn3 j hj
  have hbc : busyWait (fun k => !decide (hw.CALIF k = true)) 4294967296 0
      ((clk % 4294967296) >>> 4) = some (Wait.expired (pollBudget clk)) := by
    apply busyWait_eq_expired _ _ (delay_lt clk)
    intro j hj
    by_contra hcc
    exact hc ⟨j, hj, by simpa using hcc⟩
  have hpos := countdown_pos ((clk % 4294967296) >>> 4)
  have hlast : hw.CALIF (pollBudget clk - 1) = false := by
    by_contra hcc
    exact hc ⟨pollBudget clk - 1, by unfold pollBudget; omega, by simpa using hcc⟩
  unfold EADC_Open
  simp only [Mach.rd, Mach.wr, Regs.write, Regs.set, Function.update_same, Function.update_idem]
  simp only [hwBit_and_msk _ _ _ hM, hwBit_and_msk _ _ _ hC, hbw, ne_eq, decide_not, hbc]
  rw [if_pos (by simpa [Function.update_apply] using h)]
  refine ⟨_, rfl, rfl, ?_, ?_, ?_, ?_, ?_, ?_, ?_, ?_, ?_, hn0, hn1, hn2, hn3, rfl⟩
  · cases eadc <;>
      simp [Mach.present, Regs.set, EADC_Open_slowClock, SYS_UnlockReg, Mach.rd, Mach.wr,
        Regs.write, calibrationStores, ctlCommitted, divReg, divMsk, divPos, selMsk, selHCLK]
  · cases eadc <;>
      simp [Mach.present, Regs.set, EADC_Open_slowClock, SYS_UnlockReg, Mach.rd, Mach.wr,
        Regs.write]
  · cases eadc <;>
      simp [Mach.present, Regs.set, EADC_Open_slowClock, SYS_UnlockReg, Mach.rd, Mach.wr,
        Regs.write, hwBit, hn2, ctlCommitted]
  · cases eadc <;>
      simp [Mach.present, Regs.set, EADC_Open_slowClock, SYS_UnlockReg, Mach.rd, Mach.wr,
        Regs.write, divReg, divMsk, divPos]
  · cases eadc <;>
      simp [Mach.present, Regs.set, EADC_Open_slowClock, SYS_UnlockReg, Mach.rd, Mach.wr,
        Regs.write, selMsk, selHCLK]
  · cases eadc <;>
      simp [Mach.present, Regs.set, EADC_Open_slowClock, SYS_UnlockReg, Mach.rd, Mach.wr,
        Regs.write]
  · cases eadc <;>
      simp [Mach.present, Regs.set, EADC_Open_slowClock, SYS_UnlockReg, Mach.rd, Mach.wr,
        Regs.write, hwBit, hlast, andnot_and_msk]
  · cases eadc <;>
      simp [Mach.present, Regs.set, EADC_Open_slowClock, SYS_UnlockReg, Mach.rd, Mach.wr,
        Regs.write]
  · intro r h1 h2 h3 h4 h5 h6
    cases eadc <;> cases r <;>
      simp_all [Mach.present, Regs.set, EADC_Open_slowClock, SYS_UnlockReg, Mach.rd, Mach.wr,
        Regs.write, divReg, Function.update_apply]

/-- Path "calibrated": the reset completes and a poll of the calibration wait reads
`CALIF` as set. -/
theorem EADC_Open_calOk (L : Layout) (clk : Nat) (hw : Hardware) (eadc : EADC_T) (mode : Nat)
    (s : Regs) (hM : L.EADC_CTL_ADCRST_Msk ≠ 0) (hC : L.EADC_CALSR_CALIF_Msk ≠ 0)
    (h : califClear L eadc s) (hr : resetCompletes clk hw) (hc : calObserved clk hw) :
    ∃ res, EADC_Open L clk hw eadc mode s = some res ∧
      res.ret = EADC_Open_clockCheck L eadc res.regs ∧
      res.log = calibrationStores L eadc mode s ++
        [Event.write .PCLKDIV (s.reg .PCLKDIV), Event.write .CLKSEL0 (s.reg .CLKSEL0),
          Event.write (divReg eadc) (s.reg (divReg eadc))] ++
        (if s.locked then [Event.lockReg] else []) ∧
      res.regs.locked = s.locked ∧
      res.regs.reg (.CTL eadc) =
        (ctlCommitted L mode (s.reg (.CTL eadc)) ||| L.EADC_CTL_ADCRST_Msk) &&&
          not32 L.EADC_CTL_ADCRST_Msk ∧
      (res.regs.reg (.CALSR eadc) &&& L.EADC_CALSR_CALIF_Msk) = L.EADC_CALSR_CALIF_Msk ∧
      res.regs.reg (.CALCTL eadc) =
        (((s.reg (.CALCTL eadc) &&& not32 0x000F0000) ||| 0x00020000) |||
          L.EADC_CALCTL_CAL_Msk) ∧
      (∀ r, r ≠ .CTL eadc → r ≠ .CALSR eadc → r ≠ .CALCTL eadc →
        res.regs.reg r = s.reg r) ∧
      0 < res.resetPolls ∧ res.resetPolls ≤ pollBudget clk ∧
      hw.ADCRST (res.resetPolls - 1) = false ∧
      (∀ j, j < res.resetPolls - 1 → hw.ADCRST j = true) ∧
      0 < res.calPolls ∧ res.calPolls ≤ pollBudget clk ∧
      hw.CALIF (res.calPolls - 1) = true ∧
      (∀ j, j < res.calPolls - 1 → hw.CALIF j = false) := by
  unfold califClear at h
  obtain ⟨n, hbw, hn0, hn1, hn2, hn3⟩ :=
    busyWait_eq_done (fun k => decide (hw.ADCRST k = true))
      ((clk % 4294967296) >>> 4) (delay_lt clk) (by
        obtain ⟨k, hk1, hk2⟩ := hr
        exact ⟨k, hk1, by simp [hk2]⟩)
  have hn2 : hw.ADCRST (n - 1) = false := by simpa using hn2
  have hn3 : ∀ j, j < n - 1 → hw.ADCRST j = true := fun j hj => by simpa using hn3 j hj
  obtain ⟨c, hbc, hc0, hc1, hc2, hc3⟩ :=
    busyWait_eq_done (fun k => !decide (hw.CALIF k = true))
      ((clk % 4294967296) >>> 4) (delay_lt clk) (by
        obtain ⟨k, hk1, hk2⟩ := hc
        exact ⟨k, hk1, by simp [hk2]⟩)
  have hc2 : hw.CALIF (c - 1) = true := by simpa using hc2
  have hc3 : ∀ j, j < c - 1 → hw.CALIF j = false := fun j hj => by simpa using hc3 j hj
  unfold EADC_Open
  simp only [Mach.rd, Mach.wr, Regs.write, Regs.set, Function.update_same, Function.update_idem]
  simp only [hwBit_and_msk _ _ _ hM, hwBit_and_msk _ _ _ hC, hbw, ne_eq, decide_not, hbc]
  rw [if_pos (by simpa [Function.update_apply] using h)]
  refine ⟨_, rfl, rfl, ?_, ?_, ?_, ?_, ?_, ?_, hn0, hn1, hn2, hn3, hc0, hc1, hc2, hc3⟩
  · cases eadc <;> cases hl : s.locked <;>
      simp [Mach.present, Regs.set, EADC_Open_slowClock, EADC_Open_restoreDiv, SYS_UnlockReg,
        SYS_LockReg, SYS_IsRegLocked, Mach.rd, Mach.wr, Regs.write, calibrationStores,
        ctlCommitted, divReg, divMsk, divPos, selMsk, selHCLK, hl]
  · cases eadc <;> cases hl : s.locked <;>
      simp [Mach.present, Regs.set, EADC_Open_slowClock, EADC_Open_restoreDiv, SYS_UnlockReg,
        SYS_LockReg, SYS_IsRegLocked, Mach.rd, Mach.wr, Regs.write, hl]
  · cases eadc <;> cases hl : s.locked <;>
      simp [Mach.present, Regs.set, EADC_Open_slowClock, EADC_Open_restoreDiv, SYS_UnlockReg,
        SYS_LockReg, SYS_IsRegLocked, Mach.rd, Mach.wr, Regs.write, hwBit, hn2, ctlCommitted, hl]
  · cases eadc <;> cases hl : s.locked <;>
      simp [Mach.present, Regs.set, EADC_Open_slowClock, EADC_Open_restoreDiv, SYS_UnlockReg,
        SYS_LockReg, SYS_IsRegLocked, Mach.rd, Mach.wr, Regs.write, hwBit, hc2, or_and_msk, hl]
  · cases eadc <;> cases hl : s.locked <;>
      simp [Mach.present, Regs.set, EADC_Open_slowClock, EADC_Open_restoreDiv, SYS_UnlockReg,
        SYS_LockReg, SYS_IsRegLocked, Mach.rd, Mach.wr, Regs.write, hl]
  · intro r h1 h2 h3
    clear hbw hbc hn3 hc3 hn1 hc1 hr hc
    cases eadc <;> cases hl : s.locked <;>
      simp [Mach.present, Regs.set, EADC_Open_slowClock, EADC_Open_restoreDiv,
        SYS_UnlockReg, SYS_LockReg, SYS_IsRegLocked, Mach.rd, Mach.wr, Regs.write,
        Function.update_apply, hl, h1, h2, h3] <;>
      (split_ifs with a b c <;> first | rfl | rw [a] | rw [b] | rw [c])

/-! ## Layout facts -/

theorem m460_wellFormed : m460.WellFormed where
  adcrst_ne := by decide
  calif_ne := by decide
  adcen_lt := by decide
  adcrst_lt := by decide
  diffen_lt := by decide
  adcen_adcrst := by decide
  diffen_adcen := by decide
  diffen_adcrst := by decide
  single_end := rfl
  differential := rfl
  sel_lt := by intro u; cases u <;> decide
  sel_disjoint := by intro u v h; cases u <;> cases v <;> first | exact absurd rfl h | decide
  hclk_disjoint := by intro u v h; cases u <;> cases v <;> first | exact absurd rfl h | decide
  timeout_ne_zero := by decide
  cal_ne_zero := by decide
  clkdiv_ne_zero := by decide
  timeout_ne_cal := by decide
  timeout_ne_clkdiv := by decide
  cal_ne_clkdiv := by decide

theorem clockCheck_eq (L : Layout) (eadc : EADC_T) (s : Regs) :
    EADC_Open_clockCheck L eadc s =
      if unitDiv L eadc s < apb1Div L s then L.EADC_CLKDIV_ERR else 0 := by
  cases eadc <;> rfl

theorem clockCheck_cases (L : Layout) (eadc : EADC_T) (t : Regs) :
    EADC_Open_clockCheck L eadc t = 0 ∨ EADC_Open_clockCheck L eadc t = L.EADC_CLKDIV_ERR := by
  rw [clockCheck_eq]
  split
  · exact Or.inr rfl
  · exact Or.inl rfl

theorem clockCheck_ne_timeout (L : Layout) (hL : L.WellFormed) (eadc : EADC_T) (t : Regs) :
    EADC_Open_clockCheck L eadc t ≠ L.EADC_TIMEOUT_ERR := by
  intro heq
  rcases clockCheck_cases L eadc t with h | h <;> rw [h] at heq
  · exact hL.timeout_ne_zero heq.symm
  · exact hL.timeout_ne_clkdiv heq.symm

theorem clockCheck_ne_cal (L : Layout) (hL : L.WellFormed) (eadc : EADC_T) (t : Regs) :
    EADC_Open_clockCheck L eadc t ≠ L.EADC_CAL_ERR := by
  intro heq
  rcases clockCheck_cases L eadc t with h | h <;> rw [h] at heq
  · exact hL.cal_ne_zero heq.symm
  · exact hL.cal_ne_clkdiv heq.symm

theorem budget_pos (clk : Nat) : 0 < pollBudget clk := countdown_pos _

theorem resetCompletes_hwCalNever (clk : Nat) : resetCompletes clk hwCalNever :=
  ⟨0, budget_pos clk, rfl⟩

theorem not_calObserved_hwCalNever (clk : Nat) : ¬ calObserved clk hwCalNever := by
  rintro ⟨k, -, hk⟩
  exact Bool.noConfusion hk

theorem not_resetCompletes_hwResetNever (clk : Nat) : ¬ resetCompletes clk hwResetNever := by
  rintro ⟨k, -, hk⟩
  exact Bool.noConfusion hk

theorem resetCompletes_hwGood : resetCompletes 200000000 hwGood := ⟨1, by decide, by decide⟩

theorem calObserved_hwGood : calObserved 200000000 hwGood := ⟨1, by decide, by decide⟩

theorem divReg_ne (eadc : EADC_T) :
    divReg eadc ≠ .CTL eadc ∧ divReg eadc ≠ .CALSR eadc ∧ divReg eadc ≠ .CALCTL eadc ∧
      divReg eadc ≠ .CLKSEL0 ∧ divReg eadc ≠ .PCLKDIV := by
  cases eadc <;> simp [divReg]

/-! ## Field arithmetic on register words -/

theorem testBit_lt32 {m i : Nat} (h : m < 4294967296) (hb : m.testBit i = true) : i < 32 := by
  by_contra hge
  have h1 : 2 ^ 32 ≤ 2 ^ i := Nat.pow_le_pow_right (by norm_num) (by omega)
  have h2 := Nat.testBit_implies_ge hb
  have h3 : (2 : Nat) ^ 32 = 4294967296 := by norm_num
  omega

theorem testBit_disjoint {a b : Nat} (h : a &&& b = 0) (i : Nat) (ha : a.testBit i = true) :
    b.testBit i = false := by
  have h1 := congrArg (fun x => x.testBit i) h
  simp only [Nat.testBit_and, Nat.zero_testBit, ha, Bool.true_and] at h1
  exact h1

theorem and_or_right (x y m : Nat) : (x ||| y) &&& m = (x &&& m) ||| (y &&& m) := by
  apply Nat.eq_of_testBit_eq
  intro i
  simp only [Nat.testBit_and, Nat.testBit_or]
  cases x.testBit i <;> cases y.testBit i <;> cases m.testBit i <;> rfl

/-- Setting bits outside a field leaves the field as it was. -/
theorem or_keep (x y m : Nat) (h : y &&& m = 0) : (x ||| y) &&& m = x &&& m := by
  rw [and_or_right, h, Nat.or_zero]

/-- Clearing a field disjoint from a 32-bit field leaves the latter as it was. -/
theorem clear_keep (x a m : Nat) (h : a &&& m = 0) (hm : m < 4294967296) :
    (x &&& not32 a) &&& m = x &&& m := by
  apply Nat.eq_of_testBit_eq
  intro i
  simp only [Nat.testBit_and, testBit_not32]
  cases hmi : m.testBit i
  · simp
  · have hi : i < 32 := testBit_lt32 hm hmi
    have hai : a.testBit i = false := by
      cases hai : a.testBit i
      · rfl
      · have := testBit_disjoint h i hai
        rw [hmi] at this
        exact Bool.noConfusion this
    simp [hi, hai]

/-- The three values `CTL` can hold when `EADC_Open` returns all have `ADCEN` set and
the `DIFFEN` field equal to the requested mode. -/
theorem ctl_bits (L : Layout) (hL : L.WellFormed) (mode c : Nat) (hmode : validMode L mode) :
    (ctlCommitted L mode c &&& L.EADC_CTL_ADCEN_Msk = L.EADC_CTL_ADCEN_Msk ∧
      ctlCommitted L mode c &&& L.EADC_CTL_DIFFEN_Msk = mode) ∧
    ((ctlCommitted L mode c ||| L.EADC_CTL_ADCRST_Msk) &&& L.EADC_CTL_ADCEN_Msk =
        L.EADC_CTL_ADCEN_Msk ∧
      (ctlCommitted L mode c ||| L.EADC_CTL_ADCRST_Msk) &&& L.EADC_CTL_DIFFEN_Msk = mode) ∧
    (((ctlCommitted L mode c ||| L.EADC_CTL_ADCRST_Msk) &&& not32 L.EADC_CTL_ADCRST_Msk) &&&
        L.EADC_CTL_ADCEN_Msk = L.EADC_CTL_ADCEN_Msk ∧
      ((ctlCommitted L mode c ||| L.EADC_CTL_ADCRST_Msk) &&& not32 L.EADC_CTL_ADCRST_Msk) &&&
        L.EADC_CTL_DIFFEN_Msk = mode) := by
  have hRA : L.EADC_CTL_ADCRST_Msk &&& L.EADC_CTL_ADCEN_Msk = 0 := by
    rw [Nat.and_comm]; exact hL.adcen_adcrst
  have hRD : L.EADC_CTL_ADCRST_Msk &&& L.EADC_CTL_DIFFEN_Msk = 0 := by
    rw [Nat.and_comm]; exact hL.diffen_adcrst
  have hAD : L.EADC_CTL_ADCEN_Msk &&& L.EADC_CTL_DIFFEN_Msk = 0 := by
    rw [Nat.and_comm]; exact hL.diffen_adcen
  have hmD : mode &&& L.EADC_CTL_DIFFEN_Msk = mode := by
    rcases hmode with h | h
    · rw [h, hL.single_end, Nat.zero_and]
    · rw [h, hL.differential, Nat.and_self]
  have hA : ctlCommitted L mode c &&& L.EADC_CTL_ADCEN_Msk = L.EADC_CTL_ADCEN_Msk := by
    unfold ctlCommitted
    rw [← Nat.or_assoc, or_and_msk]
  have hD : ctlCommitted L mode c &&& L.EADC_CTL_DIFFEN_Msk = mode := by
    unfold ctlCommitted
    rw [and_or_right, andnot_and_msk, and_or_right, hAD, hmD, Nat.or_zero, Nat.zero_or]
  refine ⟨⟨hA, hD⟩, ⟨?_, ?_⟩, ⟨?_, ?_⟩⟩
  · rw [or_keep _ _ _ hRA, hA]
  · rw [or_keep _ _ _ hRD, hD]
  · rw [clear_keep _ _ _ hRA hL.adcen_lt, or_keep _ _ _ hRA, hA]
  · rw [clear_keep _ _ _ hRD hL.diffen_lt, or_keep _ _ _ hRD, hD]

/-- The stores of lines 43-45 leave the reset-request bit of `CTL` as it was. -/
theorem ctl_keeps_adcrst (L : Layout) (hL : L.WellFormed) (mode c : Nat)
    (hmode : validMode L mode) :
    (c &&& not32 L.EADC_CTL_DIFFEN_Msk) &&& L.EADC_CTL_ADCRST_Msk =
        c &&& L.EADC_CTL_ADCRST_Msk ∧
    ctlCommitted L mode c &&& L.EADC_CTL_ADCRST_Msk = c &&& L.EADC_CTL_ADCRST_Msk := by
  have h1 := clear_keep c _ _ hL.diffen_adcrst hL.adcrst_lt
  have hmR : mode &&& L.EADC_CTL_ADCRST_Msk = 0 := by
    rcases hmode with h | h
    · rw [h, hL.single_end, Nat.zero_and]
    · rw [h, hL.differential, hL.diffen_adcrst]
  refine ⟨h1, ?_⟩
  unfold ctlCommitted
  rw [or_keep _ _ _ (by rw [and_or_right, hmR, hL.adcen_adcrst, Nat.or_zero]), h1]

/-- Reprogramming the clock-source field of one unit leaves the field of another
unit as it was. -/
theorem sel_keep (L : Layout) (hL : L.WellFormed) (u v : EADC_T) (huv : u ≠ v) (x : Nat) :
    ((x &&& not32 (selMsk L u)) ||| selHCLK L u) &&& selMsk L v = x &&& selMsk L v := by
  rw [or_keep _ _ _ (hL.hclk_disjoint u v huv),
    clear_keep _ _ _ (hL.sel_disjoint u v huv) (hL.sel_lt v)]

/-- What the already-calibrated path does: no poll, two stores to the unit's `CTL`,
nothing else changed; for a documented input mode the stores carry the pre-call
reset-request bit. -/
theorem warm_facts (L : Layout) (clk : Nat) (hw : Hardware)
    (eadc : EADC_T) (mode : Nat) (s : Regs) (h0 : ¬ califClear L eadc s) :
    ∃ res, EADC_Open L clk hw eadc mode s = some res ∧
      res.ret = EADC_Open_clockCheck L eadc res.regs ∧
      (∀ ev, ev ∈ res.log → ∃ v, ev = Event.write (.CTL eadc) v) ∧
      (∀ r, r ≠ .CTL eadc → res.regs.reg r = s.reg r) ∧
      res.regs.locked = s.locked ∧
      res.regs.reg (.CTL eadc) = ctlCommitted L mode (s.reg (.CTL eadc)) ∧
      res.resetPolls = 0 ∧ res.calPolls = 0 ∧
      (L.WellFormed → validMode L mode →
        (∀ v, Event.write (.CTL eadc) v ∈ res.log →
          v &&& L.EADC_CTL_ADCRST_Msk = s.reg (.CTL eadc) &&& L.EADC_CTL_ADCRST_Msk) ∧
        res.regs.reg (.CTL eadc) &&& L.EADC_CTL_ADCRST_Msk =
          s.reg (.CTL eadc) &&& L.EADC_CTL_ADCRST_Msk) := by
  refine ⟨_, EADC_Open_warm L clk hw eadc mode s h0, rfl, ?_, ?_, rfl, ?_, rfl, rfl, ?_⟩
  · intro ev hev
    simp only [List.mem_cons, List.mem_singleton, List.not_mem_nil, or_false] at hev
    rcases hev with h | h <;> exact ⟨_, h⟩
  · intro r hne
    simp [Regs.set, Function.update_apply, hne]
  · simp [Regs.set]
  · intro hL hmode
    obtain ⟨k1, k2⟩ := ctl_keeps_adcrst L hL mode (s.reg (.CTL eadc)) hmode
    refine ⟨?_, ?_⟩
    · intro v hev
      simp only [List.mem_cons, List.mem_singleton, List.not_mem_nil, or_false,
        Event.write.injEq, true_and] at hev
      rcases hev with h | h <;> rw [h]
      · exact k1
      · exact k2
    · simp only [Regs.set, Function.update_same]; exact k2

/-! ## Footprint of `EADC_Open` -/

theorem mem_calibrationStores (L : Layout) (u : EADC_T) (mode : Nat) (s : Regs) (r : Reg)
    (val : Nat) (h : Event.write r val ∈ calibrationStores L u mode s) :
    r = .CTL u ∨ r = .CALSR u ∨ r = .CALCTL u ∨ r = divReg u ∨ r = .PCLKDIV ∨
      (r = .CLKSEL0 ∧
        (val = ((s.reg .CLKSEL0 &&& not32 (selMsk L u)) ||| selHCLK L u) ∨
          val = s.reg .CLKSEL0)) := by
  simp only [calibrationStores, List.mem_cons, List.mem_singleton, List.not_mem_nil,
    Event.write.injEq, reduceCtorEq, or_false, false_or] at h
  rcases h with h | h | h | h | h | h | h | h | h
  all_goals simp [h.1, h.2]

/-- On every path, every store of `EADC_Open(u, mode)` goes to `CTL`, `CALSR` or
`CALCTL` of `u`, to the divider register of `u`, to `PCLKDIV`, or to `CLKSEL0` with
either the slow-clock value or the pre-call value; every other register keeps its
content, and `CLKSEL0` ends with one of these two values. -/
theorem EADC_Open_footprint (L : Layout) (clk : Nat) (hw : Hardware) (u : EADC_T)
    (mode : Nat) (s : Regs) (hM : L.EADC_CTL_ADCRST_Msk ≠ 0)
    (hC : L.EADC_CALSR_CALIF_Msk ≠ 0) :
    ∃ res, EADC_Open L clk hw u mode s = some res ∧
      (∀ r val, Event.write r val ∈ res.log →
        r = .CTL u ∨ r = .CALSR u ∨ r = .CALCTL u ∨ r = divReg u ∨ r = .PCLKDIV ∨
          (r = .CLKSEL0 ∧
            (val = ((s.reg .CLKSEL0 &&& not32 (selMsk L u)) ||| selHCLK L u) ∨
              val = s.reg .CLKSEL0))) ∧
      (∀ r, r ≠ .CTL u → r ≠ .CALSR u → r ≠ .CALCTL u → r ≠ divReg u → r ≠ .PCLKDIV →
        r ≠ .CLKSEL0 → res.regs.reg r = s.reg r) ∧
      (res.regs.reg .CLKSEL0 = ((s.reg .CLKSEL0 &&& not32 (selMsk L u)) ||| selHCLK L u) ∨
        res.regs.reg .CLKSEL0 = s.reg .CLKSEL0) := by
  by_cases h0 : califClear L u s
  · by_cases hr : resetCompletes clk hw
    · by_cases hc : calObserved clk hw
      · obtain ⟨res, hres, -, hlog, -, -, -, -, hframe, -⟩ :=
          EADC_Open_calOk L clk hw u mode s hM hC h0 hr hc
        refine ⟨res, hres, ?_, fun r h1 h2 h3 _ _ _ => hframe r h1 h2 h3,
          Or.inr (hframe _ (by simp) (by simp) (by simp))⟩
        intro r val hmem
        rw [hlog] at hmem
        simp only [List.mem_append] at hmem
        rcases hmem with (hmem | hmem) | hmem
        · exact mem_calibrationStores L u mode s r val hmem
        · simp only [List.mem_cons, List.mem_singleton, List.not_mem_nil, Event.write.injEq,
            or_false] at hmem
          rcases hmem with h | h | h
          all_goals simp [h.1, h.2]
        · cases hl : s.locked <;> simp [hl] at hmem
      · obtain ⟨res, hres, -, hlog, -, -, -, hsel, -, -, -, hframe, -⟩ :=
          EADC_Open_calErr L clk hw u mode s hM hC h0 hr hc
        refine ⟨res, hres, ?_, fun r h1 h2 h3 h4 h5 h6 => hframe r h1 h4 h6 h5 h2 h3,
          Or.inl hsel⟩
        intro r val hmem
        rw [hlog] at hmem
        exact mem_calibrationStores L u mode s r val hmem
    · refine ⟨_, EADC_Open_timeout L clk hw u mode s hM h0 hr, ?_, ?_, Or.inr ?_⟩
      · intro r val hmem
        simp only [List.mem_cons, List.mem_singleton, List.not_mem_nil, Event.write.injEq,
          or_false] at hmem
        rcases hmem with h | h | h <;> exact Or.inl h.1
      · intro r h1 _ _ _ _ _
        simp [Regs.set, Function.update_apply, h1]
      · simp [Regs.set, Function.update_apply]
  · refine ⟨_, EADC_Open_warm L clk hw u mode s h0, ?_, ?_, Or.inr ?_⟩
    · intro r val hmem
      simp only [List.mem_cons, List.mem_singleton, List.not_mem_nil, Event.write.injEq,
        or_false] at hmem
      rcases hmem with h | h <;> exact Or.inl h.1
    · intro r h1 _ _ _ _ _
      simp [Regs.set, Function.update_apply, h1]
    · simp [Regs.set, Function.update_apply]

theorem divReg_injective (u v : EADC_T) (h : divReg u = divReg v) : u = v := by
  cases u <;> cases v <;> first | rfl | exact absurd h (by simp [divReg])

/-! ## Claims -/

/-- C1 (defect in the code): the claim asks that, when the calibration-finished flag
is never observed, `CLKSEL0`, the unit's divider register and `PCLKDIV` equal their
pre-call values when `EADC_Open` returns.  The routine returns `EADC_CAL_ERR` from
inside the wait (line 99) and skips the restore of lines 103-122: for `EADC0` on
`coldRegs` at `SystemCoreClock = 200000000`, with a calibration that never finishes,
it leaves `CLKSEL0 = 0x800`, `CLKDIV0 = 0x20000`, `PCLKDIV = 0` and the lock
disengaged, where the pre-call values are `0`, `0`, `0x10` and an engaged lock. -/
theorem C1_calErr_leaves_clocks_reprogrammed :
    califClear m460 .EADC0 coldRegs ∧ resetCompletes 200000000 hwCalNever ∧
    ¬ calObserved 200000000 hwCalNever ∧
    ∃ res, EADC_Open m460 200000000 hwCalNever .EADC0 m460.EADC_CTL_DIFFEN_SINGLE_END
        coldRegs = some res ∧
      res.ret = m460.EADC_CAL_ERR ∧
      res.regs.reg .CLKSEL0 = 0x800 ∧ coldRegs.reg .CLKSEL0 = 0 ∧
      res.regs.reg .CLKDIV0 = 0x20000 ∧ coldRegs.reg .CLKDIV0 = 0 ∧
      res.regs.reg .PCLKDIV = 0 ∧ coldRegs.reg .PCLKDIV = 0x10 ∧
      res.regs.locked = false ∧ coldRegs.locked = true := by
  have h0 : califClear m460 .EADC0 coldRegs := by unfold califClear; decide
  obtain ⟨res, hres, hret, -, hlock, -, hdiv, hsel, hpclk, -⟩ :=
    EADC_Open_calErr m460 200000000 hwCalNever .EADC0 m460.EADC_CTL_DIFFEN_SINGLE_END
      coldRegs (by decide) (by decide) h0 (resetCompletes_hwCalNever _)
      (not_calObserved_hwCalNever _)
  refine ⟨h0, resetCompletes_hwCalNever _, not_calObserved_hwCalNever _, res, hres, hret,
    hsel.trans (by decide), rfl, hdiv.trans (by decide), rfl, hpclk.trans (by decide), rfl,
    hlock, rfl⟩

/-- C2: for every unit and every pre-call register file with `CALIF` clear, if the
reset completes and the calibration-finished flag is observed within budget, then
`EADC_Open` returns through the clock check with `CLKSEL0`, `PCLKDIV` and the unit's
divider register equal to their pre-call values, and the protected-register lock is
engaged exactly when it was engaged before the call. -/
theorem C2_calibrated_run_restores_clocks_and_lock (L : Layout) (clk : Nat) (hw : Hardware)
    (eadc : EADC_T) (mode : Nat) (s : Regs) (hL : L.WellFormed)
    (h0 : califClear L eadc s) (hr : resetCompletes clk hw) (hc : calObserved clk hw) :
    ∃ res, EADC_Open L clk hw eadc mode s = some res ∧
      (res.ret = 0 ∨ res.ret = L.EADC_CLKDIV_ERR) ∧
      res.regs.reg .CLKSEL0 = s.reg .CLKSEL0 ∧
      res.regs.reg .PCLKDIV = s.reg .PCLKDIV ∧
      res.regs.reg (divReg eadc) = s.reg (divReg eadc) ∧
      (res.regs.locked = true ↔ s.locked = true) := by
  obtain ⟨res, hres, hret, -, hlock, -, -, -, hframe, -⟩ :=
    EADC_Open_calOk L clk hw eadc mode s hL.adcrst_ne hL.calif_ne h0 hr hc
  obtain ⟨d1, d2, d3, -, -⟩ := divReg_ne eadc
  refine ⟨res, hres, ?_, hframe _ (by simp) (by simp) (by simp),
    hframe _ (by simp) (by simp) (by simp), hframe _ d1 d2 d3, by rw [hlock]⟩
  rw [hret, clockCheck_eq]
  split
  · exact Or.inr rfl
  · exact Or.inl rfl

/-- Instance of C2: `EADC1` on `coldRegs`, differential mode, `SystemCoreClock = 200000000`,
hardware that ends the reset and the calibration at the second poll. -/
theorem C2_witness :
    califClear m460 .EADC1 coldRegs ∧ resetCompletes 200000000 hwGood ∧ calObserved 200000000 hwGood ∧
    ∃ res, EADC_Open m460 200000000 hwGood .EADC1 0x100 coldRegs = some res ∧
      (res.ret = 0 ∨ res.ret = m460.EADC_CLKDIV_ERR) ∧
      res.regs.reg .CLKSEL0 = coldRegs.reg .CLKSEL0 ∧
      res.regs.reg .PCLKDIV = coldRegs.reg .PCLKDIV ∧
      res.regs.reg (divReg .EADC1) = coldRegs.reg (divReg .EADC1) ∧
      (res.regs.locked = true ↔ coldRegs.locked = true) :=
  ⟨by unfold califClear; decide, resetCompletes_hwGood, calObserved_hwGood,
    C2_calibrated_run_restores_clocks_and_lock m460 200000000 hwGood .EADC1 0x100 coldRegs
      m460_wellFormed (by unfold califClear; decide) resetCompletes_hwGood calObserved_hwGood⟩

/-- C3: for every unit and every pre-call register file with `CALIF` clear, if every
poll of the reset wait reads `ADCRST` as set, `EADC_Open` returns `EADC_TIMEOUT_ERR`;
every register other than the unit's `CTL` (so `CLKSEL0`, `PCLKDIV`, `CLKDIV0`,
`CLKDIV2`, `CLKDIV5`, `CALSR`, `CALCTL`) and the lock state equal their pre-call
values, every store the routine made is a store to the unit's `CTL`, and `CTL` holds
the committed mode and enable bits with the reset-request bit set. -/
theorem C3_reset_timeout_writes_only_CTL (L : Layout) (clk : Nat) (hw : Hardware)
    (eadc : EADC_T) (mode : Nat) (s : Regs) (hL : L.WellFormed)
    (h0 : califClear L eadc s) (hbusy : ∀ k, k < pollBudget clk → hw.ADCRST k = true) :
    ∃ res, EADC_Open L clk hw eadc mode s = some res ∧
      res.ret = L.EADC_TIMEOUT_ERR ∧
      (∀ r, r ≠ .CTL eadc → res.regs.reg r = s.reg r) ∧
      res.regs.locked = s.locked ∧
      (∀ ev, ev ∈ res.log → ∃ v, ev = Event.write (.CTL eadc) v) ∧
      res.regs.reg (.CTL eadc) =
        ctlCommitted L mode (s.reg (.CTL eadc)) ||| L.EADC_CTL_ADCRST_Msk := by
  have hr : ¬ resetCompletes clk hw := by
    rintro ⟨k, hk1, hk2⟩
    rw [hbusy k hk1] at hk2
    exact Bool.noConfusion hk2
  refine ⟨_, EADC_Open_timeout L clk hw eadc mode s hL.adcrst_ne h0 hr, rfl, ?_, rfl, ?_, ?_⟩
  · intro r hne
    simp [Regs.set, Function.update_apply, hne]
  · intro ev hev
    simp only [List.mem_cons, List.mem_singleton, List.not_mem_nil, or_false] at hev
    rcases hev with h | h | h <;> exact ⟨_, h⟩
  · simp [Regs.set]

/-- Instance of C3: `EADC2` on `coldRegs`, `SystemCoreClock = 200000000`, hardware that never
ends the reset. -/
theorem C3_witness :
    califClear m460 .EADC2 coldRegs ∧
    (∀ k, k < pollBudget 200000000 → hwResetNever.ADCRST k = true) ∧
    ∃ res, EADC_Open m460 200000000 hwResetNever .EADC2 0 coldRegs = some res ∧
      res.ret = m460.EADC_TIMEOUT_ERR ∧
      (∀ r, r ≠ .CTL .EADC2 → res.regs.reg r = coldRegs.reg r) ∧
      res.regs.locked = coldRegs.locked ∧
      (∀ ev, ev ∈ res.log → ∃ v, ev = Event.write (.CTL .EADC2) v) ∧
      res.regs.reg (.CTL .EADC2) =
        ctlCommitted m460 0 (coldRegs.reg (.CTL .EADC2)) ||| m460.EADC_CTL_ADCRST_Msk :=
  ⟨by unfold califClear; decide, fun _ _ => rfl,
    C3_reset_timeout_writes_only_CTL m460 200000000 hwResetNever .EADC2 0 coldRegs
      m460_wellFormed (by unfold califClear; decide) (fun _ _ => rfl)⟩

/-- C4: `EADC_Open` always returns, and its return code follows the taxonomy: it is
`EADC_TIMEOUT_ERR` exactly when `CALIF` was clear at entry and the reset did not
complete within the reset budget; it is `EADC_CAL_ERR` exactly when `CALIF` was clear
at entry, the reset completed and the calibration-finished flag was not observed
within the calibration budget; in every other case it is 0 or `EADC_CLKDIV_ERR`; a
call that finds `CALIF` set returns neither `EADC_TIMEOUT_ERR` nor `EADC_CAL_ERR`. -/
theorem C4_return_code_taxonomy (L : Layout) (clk : Nat) (hw : Hardware)
    (eadc : EADC_T) (mode : Nat) (s : Regs) (hL : L.WellFormed) :
    ∃ res, EADC_Open L clk hw eadc mode s = some res ∧
      (res.ret = L.EADC_TIMEOUT_ERR ↔ califClear L eadc s ∧ ¬ resetCompletes clk hw) ∧
      (res.ret = L.EADC_CAL_ERR ↔
        califClear L eadc s ∧ resetCompletes clk hw ∧ ¬ calObserved clk hw) ∧
      (res.ret ≠ L.EADC_TIMEOUT_ERR → res.ret ≠ L.EADC_CAL_ERR →
        res.ret = 0 ∨ res.ret = L.EADC_CLKDIV_ERR) ∧
      (¬ califClear L eadc s →
        res.ret ≠ L.EADC_TIMEOUT_ERR ∧ res.ret ≠ L.EADC_CAL_ERR) := by
  have hchk := clockCheck_cases L eadc
  have hne1 := clockCheck_ne_timeout L hL eadc
  have hne2 := clockCheck_ne_cal L hL eadc
  by_cases h0 : califClear L eadc s
  · by_cases hr : resetCompletes clk hw
    · by_cases hc : calObserved clk hw
      · obtain ⟨res, hres, hret, -⟩ :=
          EADC_Open_calOk L clk hw eadc mode s hL.adcrst_ne hL.calif_ne h0 hr hc
        refine ⟨res, hres, ?_, ?_, fun _ _ => hret ▸ hchk _, fun h => absurd h0 h⟩
        · rw [hret]
          exact ⟨fun h => absurd h (hne1 _), fun h => absurd hr h.2⟩
        · rw [hret]
          exact ⟨fun h => absurd h (hne2 _), fun h => absurd hc h.2.2⟩
      · obtain ⟨res, hres, hret, -⟩ :=
          EADC_Open_calErr L clk hw eadc mode s hL.adcrst_ne hL.calif_ne h0 hr hc
        refine ⟨res, hres, ?_, ?_, fun _ h => absurd hret h, fun h => absurd h0 h⟩
        · rw [hret]
          exact ⟨fun h => absurd h.symm hL.timeout_ne_cal, fun h => absurd hr h.2⟩
        · exact ⟨fun _ => ⟨h0, hr, hc⟩, fun _ => hret⟩
    · refine ⟨_, EADC_Open_timeout L clk hw eadc mode s hL.adcrst_ne h0 hr, ?_, ?_,
        fun h => absurd rfl h, fun h => absurd h0 h⟩
      · exact ⟨fun _ => ⟨h0, hr⟩, fun _ => rfl⟩
      · exact ⟨fun h => absurd h hL.timeout_ne_cal, fun h => absurd h.2.1 hr⟩
  · refine ⟨_, EADC_Open_warm L clk hw eadc mode s h0, ?_, ?_, fun _ _ => hchk _,
      fun _ => ⟨hne1 _, hne2 _⟩⟩
    · exact ⟨fun h => absurd h (hne1 _), fun h => absurd h.1 h0⟩
    · exact ⟨fun h => absurd h (hne2 _), fun h => absurd h.1 h0⟩

/-- Instance of C4: `EADC0` on `warmRegs` (already calibrated), at the layout `m460`. -/
theorem C4_witness :
    ∃ res, EADC_Open m460 200000000 hwResetNever .EADC0 0 warmRegs = some res ∧
      (res.ret = m460.EADC_TIMEOUT_ERR ↔
        califClear m460 .EADC0 warmRegs ∧ ¬ resetCompletes 200000000 hwResetNever) ∧
      (res.ret = m460.EADC_CAL_ERR ↔
        califClear m460 .EADC0 warmRegs ∧ resetCompletes 200000000 hwResetNever ∧
          ¬ calObserved 200000000 hwResetNever) ∧
      (res.ret ≠ m460.EADC_TIMEOUT_ERR → res.ret ≠ m460.EADC_CAL_ERR →
        res.ret = 0 ∨ res.ret = m460.EADC_CLKDIV_ERR) ∧
      (¬ califClear m460 .EADC0 warmRegs →
        res.ret ≠ m460.EADC_TIMEOUT_ERR ∧ res.ret ≠ m460.EADC_CAL_ERR) :=
  C4_return_code_taxonomy m460 200000000 hwResetNever .EADC0 0 warmRegs m460_wellFormed

/-- C5 (the claim fails): the documentation note says that `EADC_Open` returns
`EADC_TIMEOUT_ERR` when `CALIF` is not set to 1.  For `EADC1` on `coldRegs` at
`SystemCoreClock = 200000000`, with a reset that completes and a calibration that
never finishes, the routine returns `EADC_CAL_ERR`, which is not `EADC_TIMEOUT_ERR`. -/
theorem C5_counterexample :
    califClear m460 .EADC1 coldRegs ∧ resetCompletes 200000000 hwCalNever ∧
    ¬ calObserved 200000000 hwCalNever ∧
    ∃ res, EADC_Open m460 200000000 hwCalNever .EADC1 m460.EADC_CTL_DIFFEN_DIFFERENTIAL
        coldRegs = some res ∧
      res.ret = m460.EADC_CAL_ERR ∧ res.ret ≠ m460.EADC_TIMEOUT_ERR := by
  have h0 : califClear m460 .EADC1 coldRegs := by unfold califClear; decide
  obtain ⟨res, hres, hret, -⟩ :=
    EADC_Open_calErr m460 200000000 hwCalNever .EADC1 m460.EADC_CTL_DIFFEN_DIFFERENTIAL
      coldRegs (by decide) (by decide) h0 (resetCompletes_hwCalNever _)
      (not_calObserved_hwCalNever _)
  refine ⟨h0, resetCompletes_hwCalNever _, not_calObserved_hwCalNever _, res, hres, hret, ?_⟩
  rw [hret]
  decide

/-- C5 (amended): for every unit and every pre-call register file with `CALIF` clear
in which the reset completes but `CALIF` is never observed set during the
calibration wait, `EADC_Open` returns `EADC_CAL_ERR`, a code different from
`EADC_TIMEOUT_ERR`. -/
theorem C5_calibration_expiry_returns_CAL_ERR (L : Layout) (clk : Nat) (hw : Hardware)
    (eadc : EADC_T) (mode : Nat) (s : Regs) (hL : L.WellFormed)
    (h0 : califClear L eadc s) (hr : resetCompletes clk hw) (hc : ¬ calObserved clk hw) :
    ∃ res, EADC_Open L clk hw eadc mode s = some res ∧
      res.ret = L.EADC_CAL_ERR ∧ res.ret ≠ L.EADC_TIMEOUT_ERR := by
  obtain ⟨res, hres, hret, -⟩ :=
    EADC_Open_calErr L clk hw eadc mode s hL.adcrst_ne hL.calif_ne h0 hr hc
  exact ⟨res, hres, hret, fun h => hL.timeout_ne_cal (h.symm.trans hret)⟩

/-- Instance of C5 (amended): `EADC2` on `coldRegs`, `SystemCoreClock = 200000000`, a
calibration that never finishes. -/
theorem C5_witness :
    califClear m460 .EADC2 coldRegs ∧ resetCompletes 200000000 hwCalNever ∧
    ¬ calObserved 200000000 hwCalNever ∧
    ∃ res, EADC_Open m460 200000000 hwCalNever .EADC2 0 coldRegs = some res ∧
      res.ret = m460.EADC_CAL_ERR ∧ res.ret ≠ m460.EADC_TIMEOUT_ERR :=
  ⟨by unfold califClear; decide, resetCompletes_hwCalNever _, not_calObserved_hwCalNever _,
    C5_calibration_expiry_returns_CAL_ERR m460 200000000 hwCalNever .EADC2 0 coldRegs
      m460_wellFormed (by unfold califClear; decide) (resetCompletes_hwCalNever _)
      (not_calObserved_hwCalNever _)⟩

/-- C6: for every unit and every call of `EADC_Open` that reaches the final clock
check (`CALIF` set at entry, or reset and calibration completed), the call returns
`EADC_CLKDIV_ERR` exactly when the field `PCLKDIV.APB1DIV` is strictly greater than
the unit's divider field in the register file at that point, and 0 otherwise (equal
fields give 0).  The return value is the check evaluated on the register file the
call leaves behind, in which `PCLKDIV` and the unit's divider register hold their
pre-call values: the check stores nothing. -/
theorem C6_clock_check (L : Layout) (clk : Nat) (hw : Hardware)
    (eadc : EADC_T) (mode : Nat) (s : Regs) (hL : L.WellFormed)
    (hreach : ¬ califClear L eadc s ∨ (resetCompletes clk hw ∧ calObserved clk hw)) :
    ∃ res, EADC_Open L clk hw eadc mode s = some res ∧
      res.ret = EADC_Open_clockCheck L eadc res.regs ∧
      (res.ret = L.EADC_CLKDIV_ERR ↔ unitDiv L eadc res.regs < apb1Div L res.regs) ∧
      (apb1Div L res.regs ≤ unitDiv L eadc res.regs → res.ret = 0) ∧
      res.regs.reg .PCLKDIV = s.reg .PCLKDIV ∧
      res.regs.reg (divReg eadc) = s.reg (divReg eadc) := by
  obtain ⟨d1, d2, d3, -, -⟩ := divReg_ne eadc
  have key : ∀ res : Result, res.ret = EADC_Open_clockCheck L eadc res.regs →
      (res.ret = L.EADC_CLKDIV_ERR ↔ unitDiv L eadc res.regs < apb1Div L res.regs) ∧
      (apb1Div L res.regs ≤ unitDiv L eadc res.regs → res.ret = 0) := by
    intro res hret
    rw [hret, clockCheck_eq]
    by_cases hlt : unitDiv L eadc res.regs < apb1Div L res.regs
    · rw [if_pos hlt]
      exact ⟨⟨fun _ => hlt, fun _ => rfl⟩, fun hle => absurd hlt (Nat.not_lt.mpr hle)⟩
    · rw [if_neg hlt]
      exact ⟨⟨fun h => absurd h.symm hL.clkdiv_ne_zero, fun h => absurd h hlt⟩, fun _ => rfl⟩
  by_cases h0 : califClear L eadc s
  · rcases hreach with h | ⟨hr, hc⟩
    · exact absurd h0 h
    · obtain ⟨res, hres, hret, -, -, -, -, -, hframe, -⟩ :=
        EADC_Open_calOk L clk hw eadc mode s hL.adcrst_ne hL.calif_ne h0 hr hc
      exact ⟨res, hres, hret, (key res hret).1, (key res hret).2,
        hframe _ (by simp) (by simp) (by simp), hframe _ d1 d2 d3⟩
  · refine ⟨_, EADC_Open_warm L clk hw eadc mode s h0, rfl, (key _ rfl).1, (key _ rfl).2, ?_, ?_⟩
    · simp [Regs.set, Function.update_apply]
    · simp [Regs.set, Function.update_apply, d1]

/-- Instance of C6: `EADC0` on `warmRegs`, where `APB1DIV = 1` exceeds `EADC0DIV = 0`. -/
theorem C6_witness :
    (¬ califClear m460 .EADC0 warmRegs ∨
      (resetCompletes 200000000 hwCalNever ∧ calObserved 200000000 hwCalNever)) ∧
    ∃ res, EADC_Open m460 200000000 hwCalNever .EADC0 0 warmRegs = some res ∧
      res.ret = EADC_Open_clockCheck m460 .EADC0 res.regs ∧
      (res.ret = m460.EADC_CLKDIV_ERR ↔
        unitDiv m460 .EADC0 res.regs < apb1Div m460 res.regs) ∧
      (apb1Div m460 res.regs ≤ unitDiv m460 .EADC0 res.regs → res.ret = 0) ∧
      res.regs.reg .PCLKDIV = warmRegs.reg .PCLKDIV ∧
      res.regs.reg (divReg .EADC0) = warmRegs.reg (divReg .EADC0) :=
  ⟨Or.inl (by unfold califClear; decide),
    C6_clock_check m460 200000000 hwCalNever .EADC0 0 warmRegs m460_wellFormed
      (Or.inl (by unfold califClear; decide))⟩

/-- C7: for every unit, every previous value of `CTL` and each documented input mode,
when `EADC_Open` returns `EADC_CLKDIV_ERR` the bits committed by lines 43-45 are not
rolled back: `CTL` has `ADCEN` set and its `DIFFEN` field equals the requested mode,
whatever `DIFFEN` was before; on the already-calibrated path `CTL` is exactly
`(CTL_before & ~DIFFEN) | inputMode | ADCEN`. -/
theorem C7_clkdiv_error_keeps_enable_and_mode (L : Layout) (clk : Nat) (hw : Hardware)
    (eadc : EADC_T) (mode : Nat) (s : Regs) (hL : L.WellFormed) (hmode : validMode L mode) :
    ∃ res, EADC_Open L clk hw eadc mode s = some res ∧
      (res.ret = L.EADC_CLKDIV_ERR →
        res.regs.reg (.CTL eadc) &&& L.EADC_CTL_ADCEN_Msk = L.EADC_CTL_ADCEN_Msk ∧
        res.regs.reg (.CTL eadc) &&& L.EADC_CTL_DIFFEN_Msk = mode ∧
        (¬ califClear L eadc s →
          res.regs.reg (.CTL eadc) =
            ((s.reg (.CTL eadc) &&& not32 L.EADC_CTL_DIFFEN_Msk) ||| mode) |||
              L.EADC_CTL_ADCEN_Msk)) := by
  obtain ⟨⟨w1, w2⟩, ⟨t1, t2⟩, ⟨c1, c2⟩⟩ := ctl_bits L hL mode (s.reg (.CTL eadc)) hmode
  by_cases h0 : califClear L eadc s
  · by_cases hr : resetCompletes clk hw
    · by_cases hc : calObserved clk hw
      · obtain ⟨res, hres, -, -, -, hctl, -⟩ :=
          EADC_Open_calOk L clk hw eadc mode s hL.adcrst_ne hL.calif_ne h0 hr hc
        refine ⟨res, hres, fun _ => ⟨?_, ?_, fun h => absurd h0 h⟩⟩
        · rw [hctl]; exact c1
        · rw [hctl]; exact c2
      · obtain ⟨res, hres, -, -, -, hctl, -⟩ :=
          EADC_Open_calErr L clk hw eadc mode s hL.adcrst_ne hL.calif_ne h0 hr hc
        refine ⟨res, hres, fun _ => ⟨?_, ?_, fun h => absurd h0 h⟩⟩
        · rw [hctl]; exact c1
        · rw [hctl]; exact c2
    · refine ⟨_, EADC_Open_timeout L clk hw eadc mode s hL.adcrst_ne h0 hr,
        fun _ => ⟨?_, ?_, fun h => absurd h0 h⟩⟩
      · simp only [Regs.set, Function.update_same]; exact t1
      · simp only [Regs.set, Function.update_same]; exact t2
  · refine ⟨_, EADC_Open_warm L clk hw eadc mode s h0, fun _ => ⟨?_, ?_, fun _ => ?_⟩⟩
    · simp only [Regs.set, Function.update_same]; exact w1
    · simp only [Regs.set, Function.update_same]; exact w2
    · simp only [Regs.set, Function.update_same, ctlCommitted, Nat.or_assoc]

/-- Instance of C7: `EADC0` on `warmRegs` (where `CTL = 0x100`, `DIFFEN` set), single-end
mode; `APB1DIV = 1` exceeds `EADC0DIV = 0`, so the call returns `EADC_CLKDIV_ERR`. -/
theorem C7_witness :
    validMode m460 0 ∧
    ∃ res, EADC_Open m460 200000000 hwCalNever .EADC0 0 warmRegs = some res ∧
      (res.ret = m460.EADC_CLKDIV_ERR →
        res.regs.reg (.CTL .EADC0) &&& m460.EADC_CTL_ADCEN_Msk = m460.EADC_CTL_ADCEN_Msk ∧
        res.regs.reg (.CTL .EADC0) &&& m460.EADC_CTL_DIFFEN_Msk = 0 ∧
        (¬ califClear m460 .EADC0 warmRegs →
          res.regs.reg (.CTL .EADC0) =
            ((warmRegs.reg (.CTL .EADC0) &&& not32 m460.EADC_CTL_DIFFEN_Msk) ||| 0) |||
              m460.EADC_CTL_ADCEN_Msk)) :=
  ⟨Or.inl rfl,
    C7_clkdiv_error_keeps_enable_and_mode m460 200000000 hwCalNever .EADC0 0 warmRegs
      m460_wellFormed (Or.inl rfl)⟩

/-- C8: for every unit and every pre-call register file in which `CALIF` is already
set, `EADC_Open` skips reset, snapshot, reprogramming and calibration: it makes no
poll and every store it makes is a store to the unit's `CTL`, so it writes neither
`CALSR`, `CALCTL`, `CLKSEL0`, `PCLKDIV` nor any `CLKDIVn`; every register other than
the unit's `CTL` and the lock state are unchanged, and `CTL` holds the committed mode
and enable bits.  Called with a documented input mode, every value it stores to
`CTL` carries the pre-call reset-request bit: it never sets `ADCRST`. -/
theorem C8_calibrated_unit_writes_only_CTL (L : Layout) (clk : Nat) (hw : Hardware)
    (eadc : EADC_T) (mode : Nat) (s : Regs) (hL : L.WellFormed)
    (h0 : ¬ califClear L eadc s) :
    ∃ res, EADC_Open L clk hw eadc mode s = some res ∧
      (∀ ev, ev ∈ res.log → ∃ v, ev = Event.write (.CTL eadc) v) ∧
      (∀ r, r ≠ .CTL eadc → res.regs.reg r = s.reg r) ∧
      res.regs.locked = s.locked ∧
      res.regs.reg (.CTL eadc) = ctlCommitted L mode (s.reg (.CTL eadc)) ∧
      res.resetPolls = 0 ∧ res.calPolls = 0 ∧
      (validMode L mode →
        (∀ v, Event.write (.CTL eadc) v ∈ res.log →
          v &&& L.EADC_CTL_ADCRST_Msk = s.reg (.CTL eadc) &&& L.EADC_CTL_ADCRST_Msk) ∧
        res.regs.reg (.CTL eadc) &&& L.EADC_CTL_ADCRST_Msk =
          s.reg (.CTL eadc) &&& L.EADC_CTL_ADCRST_Msk) := by
  obtain ⟨res, hres, -, h1, h2, h3, h4, h5, h6, h7⟩ := warm_facts L clk hw eadc mode s h0
  exact ⟨res, hres, h1, h2, h3, h4, h5, h6, h7 hL⟩

/-- Instance of C8: `EADC0` on `warmRegs`, differential mode. -/
theorem C8_witness :
    ¬ califClear m460 .EADC0 warmRegs ∧
    ∃ res, EADC_Open m460 200000000 hwResetNever .EADC0 0x100 warmRegs = some res ∧
      (∀ ev, ev ∈ res.log → ∃ v, ev = Event.write (.CTL .EADC0) v) ∧
      (∀ r, r ≠ .CTL .EADC0 → res.regs.reg r = warmRegs.reg r) ∧
      res.regs.locked = warmRegs.locked ∧
      res.regs.reg (.CTL .EADC0) = ctlCommitted m460 0x100 (warmRegs.reg (.CTL .EADC0)) ∧
      res.resetPolls = 0 ∧ res.calPolls = 0 ∧
      (validMode m460 0x100 →
        (∀ v, Event.write (.CTL .EADC0) v ∈ res.log →
          v &&& m460.EADC_CTL_ADCRST_Msk =
            warmRegs.reg (.CTL .EADC0) &&& m460.EADC_CTL_ADCRST_Msk) ∧
        res.regs.reg (.CTL .EADC0) &&& m460.EADC_CTL_ADCRST_Msk =
          warmRegs.reg (.CTL .EADC0) &&& m460.EADC_CTL_ADCRST_Msk) :=
  ⟨by unfold califClear; decide,
    C8_calibrated_unit_writes_only_CTL m460 200000000 hwResetNever .EADC0 0x100 warmRegs
      m460_wellFormed (by unfold califClear; decide)⟩

/-- C9: for every unit, if a first call of `EADC_Open` on a register file with `CALIF`
clear completes calibration (returns 0 or `EADC_CLKDIV_ERR`) and the register file it
leaves is passed unchanged to a second call on the same unit (any clock, any
hardware behaviour), then the second call finds `CALIF` set and takes the
already-calibrated path: it makes no poll, every store it makes is a store to `CTL`
(so it does not set the calibration trigger in `CALCTL`), and it returns neither
`EADC_TIMEOUT_ERR` nor `EADC_CAL_ERR`; called with a documented input mode, every
value it stores to `CTL` has the reset-request bit clear. -/
theorem C9_second_call_does_not_recalibrate (L : Layout) (clk clk2 : Nat)
    (hw hw2 : Hardware) (eadc : EADC_T) (mode mode2 : Nat) (s : Regs) (res1 : Result)
    (hL : L.WellFormed) (h0 : califClear L eadc s)
    (h1 : EADC_Open L clk hw eadc mode s = some res1)
    (hret : res1.ret = 0 ∨ res1.ret = L.EADC_CLKDIV_ERR) :
    ¬ califClear L eadc res1.regs ∧
    ∃ res2, EADC_Open L clk2 hw2 eadc mode2 res1.regs = some res2 ∧
      (∀ ev, ev ∈ res2.log → ∃ v, ev = Event.write (.CTL eadc) v) ∧
      res2.ret ≠ L.EADC_TIMEOUT_ERR ∧ res2.ret ≠ L.EADC_CAL_ERR ∧
      res2.resetPolls = 0 ∧ res2.calPolls = 0 ∧
      (validMode L mode2 → ∀ v, Event.write (.CTL eadc) v ∈ res2.log →
        v &&& L.EADC_CTL_ADCRST_Msk = 0) := by
  have hpath : resetCompletes clk hw ∧ calObserved clk hw := by
    by_cases hr : resetCompletes clk hw
    · by_cases hc : calObserved clk hw
      · exact ⟨hr, hc⟩
      · obtain ⟨res, hres, hbad, -⟩ :=
          EADC_Open_calErr L clk hw eadc mode s hL.adcrst_ne hL.calif_ne h0 hr hc
        rw [h1] at hres
        cases hres
        rw [hbad] at hret
        rcases hret with h | h
        · exact absurd h hL.cal_ne_zero
        · exact absurd h hL.cal_ne_clkdiv
    · have hres := EADC_Open_timeout L clk hw eadc mode s hL.adcrst_ne h0 hr
      rw [h1] at hres
      cases hres
      rcases hret with h | h
      · exact absurd h hL.timeout_ne_zero
      · exact absurd h hL.timeout_ne_clkdiv
  obtain ⟨res, hres, -, -, -, hctl, hcalif, -⟩ :=
    EADC_Open_calOk L clk hw eadc mode s hL.adcrst_ne hL.calif_ne h0 hpath.1 hpath.2
  rw [h1] at hres
  cases hres
  have hwarm : ¬ califClear L eadc res1.regs := by
    unfold califClear
    rw [hcalif]
    exact hL.calif_ne
  have hrst : res1.regs.reg (.CTL eadc) &&& L.EADC_CTL_ADCRST_Msk = 0 := by
    rw [hctl]; exact andnot_and_msk _ _
  obtain ⟨res2, hres2, hret2, hlog, -, -, -, hp1, hp2, hkeep⟩ :=
    warm_facts L clk2 hw2 eadc mode2 res1.regs hwarm
  refine ⟨hwarm, res2, hres2, hlog, ?_, ?_, hp1, hp2, ?_⟩
  · rw [hret2]; exact clockCheck_ne_timeout L hL eadc _
  · rw [hret2]; exact clockCheck_ne_cal L hL eadc _
  · intro hmode2 v hv
    exact ((hkeep hL hmode2).1 v hv).trans hrst

/-- Instance of C9: the first call calibrates `EADC0` on `coldRegs` and returns
`EADC_CLKDIV_ERR`; the second call runs on the register file it leaves, with
hardware that would never end a reset. -/
theorem C9_witness :
    califClear m460 .EADC0 coldRegs ∧
    EADC_Open m460 200000000 hwGood .EADC0 0 coldRegs = some firstResult ∧
    (firstResult.ret = 0 ∨ firstResult.ret = m460.EADC_CLKDIV_ERR) ∧
    ¬ califClear m460 .EADC0 firstResult.regs ∧
    ∃ res2, EADC_Open m460 200000000 hwResetNever .EADC0 0x100 firstResult.regs = some res2 ∧
      (∀ ev, ev ∈ res2.log → ∃ v, ev = Event.write (.CTL .EADC0) v) ∧
      res2.ret ≠ m460.EADC_TIMEOUT_ERR ∧ res2.ret ≠ m460.EADC_CAL_ERR ∧
      res2.resetPolls = 0 ∧ res2.calPolls = 0 ∧
      (validMode m460 0x100 → ∀ v, Event.write (.CTL .EADC0) v ∈ res2.log →
        v &&& m460.EADC_CTL_ADCRST_Msk = 0) :=
  ⟨by unfold califClear; decide, rfl, Or.inr (by decide),
    C9_second_call_does_not_recalibrate m460 200000000 200000000 hwGood hwResetNever .EADC0
      0 0x100 coldRegs firstResult m460_wellFormed (by unfold califClear; decide) rfl
      (Or.inr (by decide))⟩

/-- C10: for every pair of distinct units `u` and `v`, every input mode, every
pre-call register file and every hardware behaviour, `EADC_Open(u, mode)` returns,
and on whichever path it returns the registers `CTL`, `CALSR`, `CALCTL` of `v` and
the divider register of `v` equal their pre-call values and are the target of no
store, and every store to `CLKSEL0`, as well as the final content of `CLKSEL0`,
carries the pre-call value in the clock-source field of `v`. -/
theorem C10_other_units_untouched (L : Layout) (clk : Nat) (hw : Hardware) (u v : EADC_T)
    (mode : Nat) (s : Regs) (hL : L.WellFormed) (huv : u ≠ v) :
    ∃ res, EADC_Open L clk hw u mode s = some res ∧
      res.regs.reg (.CTL v) = s.reg (.CTL v) ∧
      res.regs.reg (.CALSR v) = s.reg (.CALSR v) ∧
      res.regs.reg (.CALCTL v) = s.reg (.CALCTL v) ∧
      res.regs.reg (divReg v) = s.reg (divReg v) ∧
      res.regs.reg .CLKSEL0 &&& selMsk L v = s.reg .CLKSEL0 &&& selMsk L v ∧
      (∀ r val, Event.write r val ∈ res.log →
        r ≠ .CTL v ∧ r ≠ .CALSR v ∧ r ≠ .CALCTL v ∧ r ≠ divReg v ∧
          (r = .CLKSEL0 → val &&& selMsk L v = s.reg .CLKSEL0 &&& selMsk L v)) := by
  obtain ⟨res, hres, hlog, hframe, hsel⟩ :=
    EADC_Open_footprint L clk hw u mode s hL.adcrst_ne hL.calif_ne
  have hvu : v ≠ u := fun h => huv h.symm
  have hdiv : divReg v ≠ divReg u := fun h => hvu (divReg_injective v u h)
  obtain ⟨dv1, dv2, dv3, dv4, dv5⟩ := divReg_ne v
  have dvu : divReg v ≠ .CTL u ∧ divReg v ≠ .CALSR u ∧ divReg v ≠ .CALCTL u := by
    cases v <;> simp [divReg]
  have duv : divReg u ≠ .CTL v ∧ divReg u ≠ .CALSR v ∧ divReg u ≠ .CALCTL v := by
    cases u <;> simp [divReg]
  have hkeep := sel_keep L hL u v huv (s.reg .CLKSEL0)
  refine ⟨res, hres, ?_, ?_, ?_, ?_, ?_, ?_⟩
  · exact hframe _ (by simp [hvu]) (by simp) (by simp) (Ne.symm duv.1) (by simp) (by simp)
  · exact hframe _ (by simp) (by simp [hvu]) (by simp) (Ne.symm duv.2.1) (by simp) (by simp)
  · exact hframe _ (by simp) (by simp) (by simp [hvu]) (Ne.symm duv.2.2) (by simp) (by simp)
  · exact hframe _ dvu.1 dvu.2.1 dvu.2.2 hdiv dv5 dv4
  · rcases hsel with h | h
    · rw [h, hkeep]
    · rw [h]
  · intro r val hmem
    rcases hlog r val hmem with h | h | h | h | h | ⟨h, hval⟩
    · subst h
      exact ⟨by simp [huv], by simp, by simp, Ne.symm dvu.1, fun h => by simp at h⟩
    · subst h
      exact ⟨by simp, by simp [huv], by simp, Ne.symm dvu.2.1, fun h => by simp at h⟩
    · subst h
      exact ⟨by simp, by simp, by simp [huv], Ne.symm dvu.2.2, fun h => by simp at h⟩
    · subst h
      obtain ⟨du1, du2, du3, du4, du5⟩ := divReg_ne u
      exact ⟨duv.1, duv.2.1, duv.2.2, Ne.symm hdiv, fun h => absurd h du4⟩
    · subst h
      exact ⟨by simp, by simp, by simp, Ne.symm dv5, fun h => by simp at h⟩
    · subst h
      refine ⟨by simp, by simp, by simp, Ne.symm dv4, fun _ => ?_⟩
      rcases hval with h | h
      · rw [h, hkeep]
      · rw [h]

/-- Instance of C10: `EADC_Open(EADC0, .)` on `coldRegs` against the registers of
`EADC2`, with a calibration that never finishes. -/
theorem C10_witness :
    EADC_T.EADC0 ≠ EADC_T.EADC2 ∧
    ∃ res, EADC_Open m460 200000000 hwCalNever .EADC0 0 coldRegs = some res ∧
      res.regs.reg (.CTL .EADC2) = coldRegs.reg (.CTL .EADC2) ∧
      res.regs.reg (.CALSR .EADC2) = coldRegs.reg (.CALSR .EADC2) ∧
      res.regs.reg (.CALCTL .EADC2) = coldRegs.reg (.CALCTL .EADC2) ∧
      res.regs.reg (divReg .EADC2) = coldRegs.reg (divReg .EADC2) ∧
      res.regs.reg .CLKSEL0 &&& selMsk m460 .EADC2 =
        coldRegs.reg .CLKSEL0 &&& selMsk m460 .EADC2 ∧
      (∀ r val, Event.write r val ∈ res.log →
        r ≠ .CTL .EADC2 ∧ r ≠ .CALSR .EADC2 ∧ r ≠ .CALCTL .EADC2 ∧ r ≠ divReg .EADC2 ∧
          (r = .CLKSEL0 →
            val &&& selMsk m460 .EADC2 = coldRegs.reg .CLKSEL0 &&& selMsk m460 .EADC2)) :=
  ⟨by decide,
    C10_other_units_untouched m460 200000000 hwCalNever .EADC0 .EADC2 0 coldRegs m460_wellFormed
      (by decide)⟩

/-! ## Updating a field of a register word -/

theorem and_within {v m k : Nat} (hv : v &&& m = v) (hk : m &&& k = 0) : v &&& k = 0 := by
  rw [← hv, Nat.and_assoc, hk, Nat.and_zero]

theorem within_not32 (v m : Nat) (hv : v &&& m = v) : v &&& not32 m = 0 := by
  apply Nat.eq_of_testBit_eq
  intro i
  have e := congrArg (fun z => z.testBit i) hv
  simp only [Nat.testBit_and] at e
  simp only [Nat.testBit_and, testBit_not32, Nat.zero_testBit]
  revert e
  cases v.testBit i <;> cases m.testBit i <;> simp

/-- After `x = (x & ~m) | v` with `v` inside the field `m`, the field holds `v`. -/
theorem upd_field (x v m : Nat) (hv : v &&& m = v) : ((x &&& not32 m) ||| v) &&& m = v := by
  rw [and_or_right, andnot_and_msk, hv, Nat.zero_or]

/-- After `x = (x & ~m) | v` with `v` inside the field `m`, the bits outside `m` are
those of `x`. -/
theorem upd_rest (x v m : Nat) (hv : v &&& m = v) :
    ((x &&& not32 m) ||| v) &&& not32 m = x &&& not32 m := by
  rw [and_or_right, within_not32 v m hv, Nat.or_zero, Nat.and_assoc, Nat.and_self]

/-- After `x = (x & ~m) | v` with `v` inside the field `m`, a 32-bit field disjoint
from `m` holds what it held. -/
theorem upd_other (x v m k : Nat) (hv : v &&& m = v) (hk : m &&& k = 0)
    (hlt : k < 4294967296) : ((x &&& not32 m) ||| v) &&& k = x &&& k := by
  rw [or_keep _ _ _ (and_within hv hk), clear_keep _ _ _ hk hlt]

/-- A second update of the same field replaces the first. -/
theorem upd_replace (x v w m : Nat) (hv : v &&& m = v) :
    (((x &&& not32 m) ||| v) &&& not32 m) ||| w = (x &&& not32 m) ||| w := by
  rw [upd_rest x v m hv]

/-- Updates of two disjoint 32-bit fields commute. -/
theorem upd_comm (x v m w k : Nat) (hv : v &&& m = v) (hw : w &&& k = w)
    (hd : m &&& k = 0) (hm : m < 4294967296) (hk : k < 4294967296) :
    (((x &&& not32 m) ||| v) &&& not32 k) ||| w =
      (((x &&& not32 k) ||| w) &&& not32 m) ||| v := by
  apply Nat.eq_of_testBit_eq
  intro i
  have e1 := congrArg (fun z => z.testBit i) hv
  have e2 := congrArg (fun z => z.testBit i) hw
  have e3 := congrArg (fun z => z.testBit i) hd
  simp only [Nat.testBit_and, Nat.zero_testBit] at e1 e2 e3
  simp only [Nat.testBit_or, Nat.testBit_and, testBit_not32]
  by_cases hi : i < 32
  · simp only [hi, decide_True, Bool.true_and]
    revert e1 e2 e3
    cases x.testBit i <;> cases v.testBit i <;> cases m.testBit i <;>
      cases w.testBit i <;> cases k.testBit i <;> simp
  · have hmi : m.testBit i = false := by
      cases h : m.testBit i
      · rfl
      · exact absurd (testBit_lt32 hm h) hi
    have hki : k.testBit i = false := by
      cases h : k.testBit i
      · rfl
      · exact absurd (testBit_lt32 hk h) hi
    rw [hmi] at e1
    rw [hki] at e2
    simp only [Bool.and_false] at e1 e2
    simp [hi, ← e1, ← e2]

theorem or_within {a b m k : Nat} (ha : a &&& m = a) (hb : b &&& k = b) :
    (a ||| b) &&& (m ||| k) = a ||| b := by
  apply Nat.eq_of_testBit_eq
  intro i
  have e1 := congrArg (fun z => z.testBit i) ha
  have e2 := congrArg (fun z => z.testBit i) hb
  simp only [Nat.testBit_and] at e1 e2
  simp only [Nat.testBit_or, Nat.testBit_and]
  revert e1 e2
  cases a.testBit i <;> cases b.testBit i <;> cases m.testBit i <;> cases k.testBit i <;> simp

/-- Reading a sub-field of a field: if the words agree on `m`, they agree on every
`k` inside `m`. -/
theorem and_sub {x y m k : Nat} (h : x &&& m = y &&& m) (hk : m &&& k = k) :
    x &&& k = y &&& k := by
  rw [← hk, ← Nat.and_assoc, ← Nat.and_assoc, h]

theorem or_and_left (a b : Nat) : (a ||| b) &&& a = a := by
  rw [Nat.or_comm, or_and_msk]

theorem testBit_lt8 {t j : Nat} (ht : t ≤ 255) (hb : t.testBit j = true) : j < 8 := by
  by_contra hge
  have h1 : 2 ^ 8 ≤ 2 ^ j := Nat.pow_le_pow_right (by norm_num) (by omega)
  have h2 := Nat.testBit_implies_ge hb
  have h3 : (2 : Nat) ^ 8 = 256 := by norm_num
  omega

theorem testBit_shl32 (t pos i : Nat) :
    (((t <<< pos) % 4294967296).testBit i) =
      (decide (i < 32) && (decide (pos ≤ i) && t.testBit (i - pos))) := by
  have h : (4294967296 : Nat) = 2 ^ 32 := by norm_num
  rw [h, Nat.testBit_mod_two_pow, Nat.testBit_shiftLeft]

theorem testBit_byte_mask (pos i : Nat) :
    ((255 <<< pos).testBit i) = (decide (pos ≤ i) && decide (i - pos < 8)) := by
  have h : (255 : Nat) = 2 ^ 8 - 1 := by norm_num
  rw [h, Nat.testBit_shiftLeft, Nat.testBit_two_pow_sub_one]

/-- A byte shifted to a position lies inside the byte field at that position. -/
theorem shl_byte_within (t pos : Nat) (ht : t ≤ 255) :
    ((t <<< pos) % 4294967296) &&& (255 <<< pos) = (t <<< pos) % 4294967296 := by
  apply Nat.eq_of_testBit_eq
  intro i
  simp only [Nat.testBit_and, testBit_shl32, testBit_byte_mask]
  cases hb : t.testBit (i - pos)
  · simp
  · have := testBit_lt8 ht hb
    simp [this]

/-- Any word shifted to bit 24, as a 32-bit word, lies inside the top byte. -/
theorem shl_top_byte_within (x : Nat) :
    ((x <<< 24) % 4294967296) &&& (255 <<< 24) = (x <<< 24) % 4294967296 := by
  apply Nat.eq_of_testBit_eq
  intro i
  simp only [Nat.testBit_and, testBit_shl32, testBit_byte_mask]
  by_cases h1 : i < 32 <;> by_cases h2 : 24 ≤ i
  · have h3 : i - 24 < 8 := by omega
    simp [h1, h2, h3]
  · simp [h1, h2]
  · simp [h1, h2]
  · simp [h1, h2]

theorem and_nibble (ch mask : Nat) (hch : ch ≤ 15) (hm : 15 &&& mask = 15) :
    ch &&& mask = ch := by
  have h15 : ch &&& 15 = ch := by
    have h := Nat.and_pow_two_sub_one_eq_mod ch 4
    have e : (2 : Nat) ^ 4 - 1 = 15 := by norm_num
    rw [e] at h
    rw [h]
    exact Nat.mod_eq_of_lt (by norm_num; omega)
  calc ch &&& mask = (ch &&& 15) &&& mask := by rw [h15]
    _ = ch &&& (15 &&& mask) := Nat.and_assoc _ _ _
    _ = ch := by rw [hm, h15]

/-! ## The sample-module setters -/

theorem m460Sctl_wellFormed : m460Sctl.WellFormed where
  cfg_lt := by decide
  dly_lt := by decide
  ext_lt := by decide
  cfg_dly := by decide
  cfg_ext := by decide
  dly_ext := by decide
  trg_chsel := by decide
  div_cnt := by decide
  chsel_nibble := by decide
  trgdlycnt_pos := rfl
  trgdlycnt_msk := by decide
  trgdlydiv_msk := by decide
  extsmpt_pos := rfl
  extsmpt_msk := by decide
  divider_1 := by decide
  divider_2 := by decide
  divider_4 := by decide
  divider_16 := by decide

theorem config_same (L : SctlLayout) (eadc : EADC_T) (n trig ch : Nat)
    (sctl : EADC_T → Nat → Nat) :
    EADC_ConfigSampleModule L eadc n trig ch sctl eadc n =
      (sctl eadc n &&& not32 (cfgMsk L)) ||| (trig ||| ch) := by
  simp [EADC_ConfigSampleModule, SCTL_store, cfgMsk]

theorem config_other (L : SctlLayout) (eadc : EADC_T) (n trig ch : Nat)
    (sctl : EADC_T → Nat → Nat) (e : EADC_T) (m : Nat) (h : ¬ (e = eadc ∧ m = n)) :
    EADC_ConfigSampleModule L eadc n trig ch sctl e m = sctl e m := by
  simp [EADC_ConfigSampleModule, SCTL_store, h]

theorem delay_same (L : SctlLayout) (eadc : EADC_T) (n t d : Nat)
    (sctl : EADC_T → Nat → Nat) :
    EADC_SetTriggerDelayTime L eadc n t d sctl eadc n =
      (sctl eadc n &&& not32 (dlyMsk L)) |||
        (((t <<< L.EADC_SCTL_TRGDLYCNT_Pos) % 4294967296) ||| d) := by
  simp [EADC_SetTriggerDelayTime, SCTL_store, dlyMsk]

theorem delay_other (L : SctlLayout) (eadc : EADC_T) (n t d : Nat)
    (sctl : EADC_T → Nat → Nat) (e : EADC_T) (m : Nat) (h : ¬ (e = eadc ∧ m = n)) :
    EADC_SetTriggerDelayTime L eadc n t d sctl e m = sctl e m := by
  simp [EADC_SetTriggerDelayTime, SCTL_store, h]

theorem extend_same (L : SctlLayout) (eadc : EADC_T) (n x : Nat)
    (sctl : EADC_T → Nat → Nat) :
    EADC_SetExtendSampleTime L eadc n x sctl eadc n =
      (sctl eadc n &&& not32 L.EADC_SCTL_EXTSMPT_Msk) |||
        ((x <<< L.EADC_SCTL_EXTSMPT_Pos) % 4294967296) := by
  simp [EADC_SetExtendSampleTime, SCTL_store]

theorem extend_other (L : SctlLayout) (eadc : EADC_T) (n x : Nat)
    (sctl : EADC_T → Nat → Nat) (e : EADC_T) (m : Nat) (h : ¬ (e = eadc ∧ m = n)) :
    EADC_SetExtendSampleTime L eadc n x sctl e m = sctl e m := by
  simp [EADC_SetExtendSampleTime, SCTL_store, h]

theorem cfgMsk_eq (L : SctlLayout) : cfgMsk L = trgMsk L ||| L.EADC_SCTL_CHSEL_Msk := rfl

/-- The value `EADC_ConfigSampleModule` stores lies inside the fields it clears. -/
theorem config_value_within (L : SctlLayout) (hL : L.WellFormed) (trig ch : Nat)
    (htrig : validTrigger L trig) (hch : ch ≤ 15) :
    (trig ||| ch) &&& cfgMsk L = trig ||| ch := by
  rw [cfgMsk_eq]
  exact or_within htrig (and_nibble ch _ hch hL.chsel_nibble)

theorem divider_within (L : SctlLayout) (hL : L.WellFormed) (d : Nat)
    (hd : validDivider L d) : d &&& L.EADC_SCTL_TRGDLYDIV_Msk = d := by
  rcases hd with h | h | h | h <;> rw [h]
  · exact hL.divider_1
  · exact hL.divider_2
  · exact hL.divider_4
  · exact hL.divider_16

theorem count_within (L : SctlLayout) (hL : L.WellFormed) (t : Nat) (ht : t ≤ 255) :
    ((t <<< L.EADC_SCTL_TRGDLYCNT_Pos) % 4294967296) &&& L.EADC_SCTL_TRGDLYCNT_Msk =
      (t <<< L.EADC_SCTL_TRGDLYCNT_Pos) % 4294967296 := by
  rw [hL.trgdlycnt_msk]
  exact shl_byte_within t _ ht

/-- The value `EADC_SetTriggerDelayTime` stores lies inside the fields it clears. -/
theorem delay_value_within (L : SctlLayout) (hL : L.WellFormed) (t d : Nat)
    (ht : t ≤ 255) (hd : validDivider L d) :
    (((t <<< L.EADC_SCTL_TRGDLYCNT_Pos) % 4294967296) ||| d) &&& dlyMsk L =
      ((t <<< L.EADC_SCTL_TRGDLYCNT_Pos) % 4294967296) ||| d := by
  unfold dlyMsk
  rw [Nat.or_comm L.EADC_SCTL_TRGDLYDIV_Msk]
  exact or_within (count_within L hL t ht) (divider_within L hL d hd)

/-- The value `EADC_SetExtendSampleTime` stores lies inside `EXTSMPT`, whatever the
argument. -/
theorem extend_value_within (L : SctlLayout) (hL : L.WellFormed) (x : Nat) :
    ((x <<< L.EADC_SCTL_EXTSMPT_Pos) % 4294967296) &&& L.EADC_SCTL_EXTSMPT_Msk =
      (x <<< L.EADC_SCTL_EXTSMPT_Pos) % 4294967296 := by
  rw [hL.extsmpt_msk, hL.extsmpt_pos]
  exact shl_top_byte_within x

/-- C11: for every unit, every sample module number `n` in 0..15, every documented
trigger source and every channel in 0..15, and every previous content of `SCTL[n]`:
after `EADC_ConfigSampleModule(eadc, n, trigger, channel)` the register `SCTL[n]` is
`(old & ~(EXTFEN | EXTREN | TRGSEL | CHSEL)) | trigger | channel`; its trigger and
edge-enable fields hold exactly `trigger` and its channel field exactly `channel`;
the fields `TRGDLYDIV`, `TRGDLYCNT` and `EXTSMPT` of `SCTL[n]` and every other
`SCTL[m]` (of this and of the other units) are unchanged; and a second call, with
any arguments, gives what that call alone would have given. -/
theorem C11_config_sample_module (L : SctlLayout) (eadc : EADC_T) (n trig ch : Nat)
    (sctl : EADC_T → Nat → Nat) (hL : L.WellFormed) (hn : n ≤ 15)
    (htrig : validTrigger L trig) (hch : ch ≤ 15) :
    EADC_ConfigSampleModule L eadc n trig ch sctl eadc n =
      ((sctl eadc n &&&
        not32 (L.EADC_SCTL_EXTFEN_Msk ||| L.EADC_SCTL_EXTREN_Msk ||| L.EADC_SCTL_TRGSEL_Msk |||
          L.EADC_SCTL_CHSEL_Msk)) ||| trig) ||| ch ∧
    EADC_ConfigSampleModule L eadc n trig ch sctl eadc n &&& trgMsk L = trig ∧
    EADC_ConfigSampleModule L eadc n trig ch sctl eadc n &&& L.EADC_SCTL_CHSEL_Msk = ch ∧
    EADC_ConfigSampleModule L eadc n trig ch sctl eadc n &&& L.EADC_SCTL_TRGDLYDIV_Msk =
      sctl eadc n &&& L.EADC_SCTL_TRGDLYDIV_Msk ∧
    EADC_ConfigSampleModule L eadc n trig ch sctl eadc n &&& L.EADC_SCTL_TRGDLYCNT_Msk =
      sctl eadc n &&& L.EADC_SCTL_TRGDLYCNT_Msk ∧
    EADC_ConfigSampleModule L eadc n trig ch sctl eadc n &&& L.EADC_SCTL_EXTSMPT_Msk =
      sctl eadc n &&& L.EADC_SCTL_EXTSMPT_Msk ∧
    (∀ e m, ¬ (e = eadc ∧ m = n) →
      EADC_ConfigSampleModule L eadc n trig ch sctl e m = sctl e m) ∧
    (∀ trig2 ch2,
      EADC_ConfigSampleModule L eadc n trig2 ch2
          (EADC_ConfigSampleModule L eadc n trig ch sctl) =
        EADC_ConfigSampleModule L eadc n trig2 ch2 sctl) := by
  have hv := config_value_within L hL trig ch htrig hch
  have hchM : ch &&& L.EADC_SCTL_CHSEL_Msk = ch := and_nibble ch _ hch hL.chsel_nibble
  have hfield : EADC_ConfigSampleModule L eadc n trig ch sctl eadc n &&& cfgMsk L =
      (trig ||| ch) &&& cfgMsk L := by
    rw [config_same, upd_field _ _ _ hv, hv]
  have hdly : EADC_ConfigSampleModule L eadc n trig ch sctl eadc n &&& dlyMsk L =
      sctl eadc n &&& dlyMsk L := by
    rw [config_same]
    exact upd_other _ _ _ _ hv hL.cfg_dly hL.dly_lt
  refine ⟨?_, ?_, ?_, ?_, ?_, ?_, ?_, ?_⟩
  · rw [config_same, ← Nat.or_assoc]
    rfl
  · rw [and_sub hfield (by rw [cfgMsk_eq]; exact or_and_left _ _), and_or_right, htrig,
      and_within hchM (by rw [Nat.and_comm]; exact hL.trg_chsel), Nat.or_zero]
  · rw [and_sub hfield (by rw [cfgMsk_eq]; exact or_and_msk _ _), and_or_right, hchM,
      and_within htrig hL.trg_chsel, Nat.zero_or]
  · exact and_sub hdly (or_and_left _ _)
  · exact and_sub hdly (or_and_msk _ _)
  · rw [config_same]
    exact upd_other _ _ _ _ hv hL.cfg_ext hL.ext_lt
  · exact config_other L eadc n trig ch sctl
  · intro trig2 ch2
    funext e m
    by_cases h : e = eadc ∧ m = n
    · obtain ⟨rfl, rfl⟩ := h
      rw [config_same, config_same, config_same]
      exact upd_replace _ _ _ _ hv
    · rw [config_other _ _ _ _ _ _ e m h, config_other _ _ _ _ _ _ e m h,
        config_other _ _ _ _ _ _ e m h]

/-- Instance of C11: module 3 of `EADC1` on `busySctl`, falling-edge trigger
(`EXTFEN` with `TRGSEL = 1`), channel 7. -/
theorem C11_witness :
    3 ≤ 15 ∧ validTrigger m460Sctl 0x10020 ∧ 7 ≤ 15 ∧
    (EADC_ConfigSampleModule m460Sctl .EADC1 3 0x10020 7 busySctl .EADC1 3 =
      ((busySctl .EADC1 3 &&&
        not32 (m460Sctl.EADC_SCTL_EXTFEN_Msk ||| m460Sctl.EADC_SCTL_EXTREN_Msk |||
          m460Sctl.EADC_SCTL_TRGSEL_Msk ||| m460Sctl.EADC_SCTL_CHSEL_Msk)) ||| 0x10020) ||| 7 ∧
    EADC_ConfigSampleModule m460Sctl .EADC1 3 0x10020 7 busySctl .EADC1 3 &&&
      trgMsk m460Sctl = 0x10020 ∧
    EADC_ConfigSampleModule m460Sctl .EADC1 3 0x10020 7 busySctl .EADC1 3 &&&
      m460Sctl.EADC_SCTL_CHSEL_Msk = 7 ∧
    EADC_ConfigSampleModule m460Sctl .EADC1 3 0x10020 7 busySctl .EADC1 3 &&&
      m460Sctl.EADC_SCTL_TRGDLYDIV_Msk = busySctl .EADC1 3 &&& m460Sctl.EADC_SCTL_TRGDLYDIV_Msk ∧
    EADC_ConfigSampleModule m460Sctl .EADC1 3 0x10020 7 busySctl .EADC1 3 &&&
      m460Sctl.EADC_SCTL_TRGDLYCNT_Msk = busySctl .EADC1 3 &&& m460Sctl.EADC_SCTL_TRGDLYCNT_Msk ∧
    EADC_ConfigSampleModule m460Sctl .EADC1 3 0x10020 7 busySctl .EADC1 3 &&&
      m460Sctl.EADC_SCTL_EXTSMPT_Msk = busySctl .EADC1 3 &&& m460Sctl.EADC_SCTL_EXTSMPT_Msk ∧
    (∀ e m, ¬ (e = EADC_T.EADC1 ∧ m = 3) →
      EADC_ConfigSampleModule m460Sctl .EADC1 3 0x10020 7 busySctl e m = busySctl e m) ∧
    (∀ trig2 ch2,
      EADC_ConfigSampleModule m460Sctl .EADC1 3 trig2 ch2
          (EADC_ConfigSampleModule m460Sctl .EADC1 3 0x10020 7 busySctl) =
        EADC_ConfigSampleModule m460Sctl .EADC1 3 trig2 ch2 busySctl)) :=
  ⟨by decide, by unfold validTrigger; decide, by decide,
    C11_config_sample_module m460Sctl .EADC1 3 0x10020 7 busySctl m460Sctl_wellFormed
      (by decide) (by unfold validTrigger; decide) (by decide)⟩

/-- C12: for every unit, every sample module number `n` in 0..15, every delay time
`t` in 0..0xFF, each of the four documented delay clock dividers `d` and every
previous content of `SCTL[n]`: after `EADC_SetTriggerDelayTime(eadc, n, t, d)` the
field `TRGDLYCNT` (bits 15:8 of `SCTL[n]`) holds `t`, the field `TRGDLYDIV` (bits 7:6)
holds the encoding `d`, every other bit of `SCTL[n]` and every other `SCTL[m]` (of
this and of the other units) are unchanged. -/
theorem C12_set_trigger_delay_time (L : SctlLayout) (eadc : EADC_T) (n t d : Nat)
    (sctl : EADC_T → Nat → Nat) (hL : L.WellFormed) (_hn : n ≤ 15) (ht : t ≤ 255)
    (hd : validDivider L d) :
    (EADC_SetTriggerDelayTime L eadc n t d sctl eadc n &&& L.EADC_SCTL_TRGDLYCNT_Msk) >>>
      L.EADC_SCTL_TRGDLYCNT_Pos = t ∧
    EADC_SetTriggerDelayTime L eadc n t d sctl eadc n &&& L.EADC_SCTL_TRGDLYDIV_Msk = d ∧
    EADC_SetTriggerDelayTime L eadc n t d sctl eadc n &&&
        not32 (L.EADC_SCTL_TRGDLYDIV_Msk ||| L.EADC_SCTL_TRGDLYCNT_Msk) =
      sctl eadc n &&& not32 (L.EADC_SCTL_TRGDLYDIV_Msk ||| L.EADC_SCTL_TRGDLYCNT_Msk) ∧
    (∀ e m, ¬ (e = eadc ∧ m = n) →
      EADC_SetTriggerDelayTime L eadc n t d sctl e m = sctl e m) := by
  have hv := delay_value_within L hL t d ht hd
  have hdM := divider_within L hL d hd
  have hcM := count_within L hL t ht
  have hfield : EADC_SetTriggerDelayTime L eadc n t d sctl eadc n &&& dlyMsk L =
      (((t <<< L.EADC_SCTL_TRGDLYCNT_Pos) % 4294967296) ||| d) &&& dlyMsk L := by
    rw [delay_same, upd_field _ _ _ hv, hv]
  have hsmall : (t <<< L.EADC_SCTL_TRGDLYCNT_Pos) % 4294967296 =
      t <<< L.EADC_SCTL_TRGDLYCNT_Pos := by
    apply Nat.mod_eq_of_lt
    rw [hL.trgdlycnt_pos, Nat.shiftLeft_eq]
    omega
  refine ⟨?_, ?_, ?_, delay_other L eadc n t d sctl⟩
  · rw [and_sub hfield (or_and_msk _ _), and_or_right, hcM,
      and_within hdM hL.div_cnt, Nat.or_zero, hsmall, Nat.shiftLeft_shiftRight]
  · rw [and_sub hfield (or_and_left _ _), and_or_right, hdM,
      and_within hcM (by rw [Nat.and_comm]; exact hL.div_cnt), Nat.zero_or]
  · rw [delay_same]
    exact upd_rest _ _ _ hv

/-- Instance of C12: module 3 of `EADC1` on `busySctl`, delay time `0x12`, divider
`EADC_SCTL_TRGDLYDIV_DIVIDER_4`. -/
theorem C12_witness :
    3 ≤ 15 ∧ 0x12 ≤ 255 ∧ validDivider m460Sctl 0x80 ∧
    ((EADC_SetTriggerDelayTime m460Sctl .EADC1 3 0x12 0x80 busySctl .EADC1 3 &&&
        m460Sctl.EADC_SCTL_TRGDLYCNT_Msk) >>> m460Sctl.EADC_SCTL_TRGDLYCNT_Pos = 0x12 ∧
    EADC_SetTriggerDelayTime m460Sctl .EADC1 3 0x12 0x80 busySctl .EADC1 3 &&&
      m460Sctl.EADC_SCTL_TRGDLYDIV_Msk = 0x80 ∧
    EADC_SetTriggerDelayTime m460Sctl .EADC1 3 0x12 0x80 busySctl .EADC1 3 &&&
        not32 (m460Sctl.EADC_SCTL_TRGDLYDIV_Msk ||| m460Sctl.EADC_SCTL_TRGDLYCNT_Msk) =
      busySctl .EADC1 3 &&&
        not32 (m460Sctl.EADC_SCTL_TRGDLYDIV_Msk ||| m460Sctl.EADC_SCTL_TRGDLYCNT_Msk) ∧
    (∀ e m, ¬ (e = EADC_T.EADC1 ∧ m = 3) →
      EADC_SetTriggerDelayTime m460Sctl .EADC1 3 0x12 0x80 busySctl e m = busySctl e m)) :=
  ⟨by decide, by decide, Or.inr (Or.inr (Or.inl rfl)),
    C12_set_trigger_delay_time m460Sctl .EADC1 3 0x12 0x80 busySctl m460Sctl_wellFormed
      (by decide) (by decide) (Or.inr (Or.inr (Or.inl rfl)))⟩

/-- Two setters that update disjoint 32-bit fields of `SCTL[n]` with values inside
their fields commute on the whole register arrays. -/
theorem setters_commute (f g : (EADC_T → Nat → Nat) → EADC_T → Nat → Nat)
    (eadc : EADC_T) (n v m w k : Nat)
    (hf : ∀ s, f s eadc n = (s eadc n &&& not32 m) ||| v)
    (hf' : ∀ s e j, ¬ (e = eadc ∧ j = n) → f s e j = s e j)
    (hg : ∀ s, g s eadc n = (s eadc n &&& not32 k) ||| w)
    (hg' : ∀ s e j, ¬ (e = eadc ∧ j = n) → g s e j = s e j)
    (hv : v &&& m = v) (hw : w &&& k = w) (hd : m &&& k = 0)
    (hm : m < 4294967296) (hk : k < 4294967296) (s : EADC_T → Nat → Nat) :
    g (f s) = f (g s) := by
  funext e j
  by_cases h : e = eadc ∧ j = n
  · obtain ⟨rfl, rfl⟩ := h
    rw [hg, hf, hf, hg]
    exact upd_comm _ _ _ _ _ hv hw hd hm hk
  · rw [hg' _ e j h, hf' _ e j h, hf' _ e j h, hg' _ e j h]

/-- C15: the three sample-module setters write pairwise disjoint fields of `SCTL[n]`.
For every unit, every module `n`, every previous content of the `SCTL` arrays and
all in-range arguments (documented trigger source, channel 0..15, delay time 0..0xFF
with a documented divider, extend sample time 0..0xFF), any two of
`EADC_ConfigSampleModule`, `EADC_SetTriggerDelayTime` and `EADC_SetExtendSampleTime`
applied to the same module give the same arrays in either order, and each leaves the
fields written by the other two as they were; `EADC_SetExtendSampleTime` changes no
bit outside `EXTSMPT` for every argument, in range or not. -/
theorem C15_setters_disjoint_and_commute (L : SctlLayout) (eadc : EADC_T)
    (n trig ch t d x : Nat) (sctl : EADC_T → Nat → Nat) (hL : L.WellFormed)
    (htrig : validTrigger L trig) (hch : ch ≤ 15) (ht : t ≤ 255)
    (hd : validDivider L d) (_hx : x ≤ 255) :
    (EADC_SetTriggerDelayTime L eadc n t d (EADC_ConfigSampleModule L eadc n trig ch sctl) =
      EADC_ConfigSampleModule L eadc n trig ch (EADC_SetTriggerDelayTime L eadc n t d sctl)) ∧
    (EADC_SetExtendSampleTime L eadc n x (EADC_ConfigSampleModule L eadc n trig ch sctl) =
      EADC_ConfigSampleModule L eadc n trig ch (EADC_SetExtendSampleTime L eadc n x sctl)) ∧
    (EADC_SetExtendSampleTime L eadc n x (EADC_SetTriggerDelayTime L eadc n t d sctl) =
      EADC_SetTriggerDelayTime L eadc n t d (EADC_SetExtendSampleTime L eadc n x sctl)) ∧
    (EADC_ConfigSampleModule L eadc n trig ch sctl eadc n &&& dlyMsk L =
        sctl eadc n &&& dlyMsk L ∧
      EADC_ConfigSampleModule L eadc n trig ch sctl eadc n &&& L.EADC_SCTL_EXTSMPT_Msk =
        sctl eadc n &&& L.EADC_SCTL_EXTSMPT_Msk) ∧
    (EADC_SetTriggerDelayTime L eadc n t d sctl eadc n &&& cfgMsk L =
        sctl eadc n &&& cfgMsk L ∧
      EADC_SetTriggerDelayTime L eadc n t d sctl eadc n &&& L.EADC_SCTL_EXTSMPT_Msk =
        sctl eadc n &&& L.EADC_SCTL_EXTSMPT_Msk) ∧
    (EADC_SetExtendSampleTime L eadc n x sctl eadc n &&& cfgMsk L =
        sctl eadc n &&& cfgMsk L ∧
      EADC_SetExtendSampleTime L eadc n x sctl eadc n &&& dlyMsk L =
        sctl eadc n &&& dlyMsk L) ∧
    (∀ y, EADC_SetExtendSampleTime L eadc n y sctl eadc n &&& not32 L.EADC_SCTL_EXTSMPT_Msk =
      sctl eadc n &&& not32 L.EADC_SCTL_EXTSMPT_Msk) := by
  have hc := config_value_within L hL trig ch htrig hch
  have hy := delay_value_within L hL t d ht hd
  have he := extend_value_within L hL
  have hdc : dlyMsk L &&& cfgMsk L = 0 := by rw [Nat.and_comm]; exact hL.cfg_dly
  have hec : L.EADC_SCTL_EXTSMPT_Msk &&& cfgMsk L = 0 := by rw [Nat.and_comm]; exact hL.cfg_ext
  have hed : L.EADC_SCTL_EXTSMPT_Msk &&& dlyMsk L = 0 := by rw [Nat.and_comm]; exact hL.dly_ext
  refine ⟨?_, ?_, ?_, ⟨?_, ?_⟩, ⟨?_, ?_⟩, ⟨?_, ?_⟩, ?_⟩
  · exact setters_commute _ _ eadc n _ _ _ _
      (fun s => config_same L eadc n trig ch s) (fun s => config_other L eadc n trig ch s)
      (fun s => delay_same L eadc n t d s) (fun s => delay_other L eadc n t d s)
      hc hy hL.cfg_dly hL.cfg_lt hL.dly_lt sctl
  · exact setters_commute _ _ eadc n _ _ _ _
      (fun s => config_same L eadc n trig ch s) (fun s => config_other L eadc n trig ch s)
      (fun s => extend_same L eadc n x s) (fun s => extend_other L eadc n x s)
      hc (he x) hL.cfg_ext hL.cfg_lt hL.ext_lt sctl
  · exact setters_commute _ _ eadc n _ _ _ _
      (fun s => delay_same L eadc n t d s) (fun s => delay_other L eadc n t d s)
      (fun s => extend_same L eadc n x s) (fun s => extend_other L eadc n x s)
      hy (he x) hL.dly_ext hL.dly_lt hL.ext_lt sctl
  · rw [config_same]; exact upd_other _ _ _ _ hc hL.cfg_dly hL.dly_lt
  · rw [config_same]; exact upd_other _ _ _ _ hc hL.cfg_ext hL.ext_lt
  · rw [delay_same]; exact upd_other _ _ _ _ hy hdc hL.cfg_lt
  · rw [delay_same]; exact upd_other _ _ _ _ hy hL.dly_ext hL.ext_lt
  · rw [extend_same]; exact upd_other _ _ _ _ (he x) hec hL.cfg_lt
  · rw [extend_same]; exact upd_other _ _ _ _ (he x) hed hL.dly_lt
  · intro y
    rw [extend_same]
    exact upd_rest _ _ _ (he y)

/-- Instance of C15: module 3 of `EADC1` on `busySctl`, falling-edge trigger, channel
7, delay time `0x12` with `EADC_SCTL_TRGDLYDIV_DIVIDER_4`, extend sample time `0x34`. -/
theorem C15_witness :
    validTrigger m460Sctl 0x10020 ∧ 7 ≤ 15 ∧ 0x12 ≤ 255 ∧ validDivider m460Sctl 0x80 ∧
    0x34 ≤ 255 ∧
    ((EADC_SetTriggerDelayTime m460Sctl .EADC1 3 0x12 0x80
        (EADC_ConfigSampleModule m460Sctl .EADC1 3 0x10020 7 busySctl) =
      EADC_ConfigSampleModule m460Sctl .EADC1 3 0x10020 7
        (EADC_SetTriggerDelayTime m460Sctl .EADC1 3 0x12 0x80 busySctl)) ∧
    (EADC_SetExtendSampleTime m460Sctl .EADC1 3 0x34
        (EADC_ConfigSampleModule m460Sctl .EADC1 3 0x10020 7 busySctl) =
      EADC_ConfigSampleModule m460Sctl .EADC1 3 0x10020 7
        (EADC_SetExtendSampleTime m460Sctl .EADC1 3 0x34 busySctl)) ∧
    (EADC_SetExtendSampleTime m460Sctl .EADC1 3 0x34
        (EADC_SetTriggerDelayTime m460Sctl .EADC1 3 0x12 0x80 busySctl) =
      EADC_SetTriggerDelayTime m460Sctl .EADC1 3 0x12 0x80
        (EADC_SetExtendSampleTime m460Sctl .EADC1 3 0x34 busySctl)) ∧
    (EADC_ConfigSampleModule m460Sctl .EADC1 3 0x10020 7 busySctl .EADC1 3 &&&
          dlyMsk m460Sctl = busySctl .EADC1 3 &&& dlyMsk m460Sctl ∧
      EADC_ConfigSampleModule m460Sctl .EADC1 3 0x10020 7 busySctl .EADC1 3 &&&
          m460Sctl.EADC_SCTL_EXTSMPT_Msk =
        busySctl .EADC1 3 &&& m460Sctl.EADC_SCTL_EXTSMPT_Msk) ∧
    (EADC_SetTriggerDelayTime m460Sctl .EADC1 3 0x12 0x80 busySctl .EADC1 3 &&&
          cfgMsk m460Sctl = busySctl .EADC1 3 &&& cfgMsk m460Sctl ∧
      EADC_SetTriggerDelayTime m460Sctl .EADC1 3 0x12 0x80 busySctl .EADC1 3 &&&
          m460Sctl.EADC_SCTL_EXTSMPT_Msk =
        busySctl .EADC1 3 &&& m460Sctl.EADC_SCTL_EXTSMPT_Msk) ∧
    (EADC_SetExtendSampleTime m460Sctl .EADC1 3 0x34 busySctl .EADC1 3 &&&
          cfgMsk m460Sctl = busySctl .EADC1 3 &&& cfgMsk m460Sctl ∧
      EADC_SetExtendSampleTime m460Sctl .EADC1 3 0x34 busySctl .EADC1 3 &&&
          dlyMsk m460Sctl = busySctl .EADC1 3 &&& dlyMsk m460Sctl) ∧
    (∀ y, EADC_SetExtendSampleTime m460Sctl .EADC1 3 y busySctl .EADC1 3 &&&
        not32 m460Sctl.EADC_SCTL_EXTSMPT_Msk =
      busySctl .EADC1 3 &&& not32 m460Sctl.EADC_SCTL_EXTSMPT_Msk)) :=
  ⟨by unfold validTrigger; decide, by decide, by decide, Or.inr (Or.inr (Or.inl rfl)),
    by decide,
    C15_setters_disjoint_and_commute m460Sctl .EADC1 3 0x10020 7 0x12 0x80 0x34 busySctl
      m460Sctl_wellFormed (by unfold validTrigger; decide) (by decide) (by decide)
      (Or.inr (Or.inr (Or.inl rfl))) (by decide)⟩

/-! ## The register file at the calibration trigger -/

theorem m460_clockFields : m460.ClockFields where
  div_fits := by intro u; cases u <;> decide
  hclk_fits := by intro u; cases u <;> decide

/-- A register file that holds the slow-clock values written by lines 69-88, with
the lock disengaged, has the clock configuration calibration runs under. -/
theorem calibrationClocks_of_values (L : Layout) (hF : L.ClockFields) (eadc : EADC_T)
    (s t : Regs) (hlock : t.locked = false)
    (hdiv : t.reg (divReg eadc) =
      ((s.reg (divReg eadc) &&& not32 (divMsk L eadc)) ||| (2 <<< divPos L eadc)))
    (hsel : t.reg .CLKSEL0 = ((s.reg .CLKSEL0 &&& not32 (selMsk L eadc)) ||| selHCLK L eadc))
    (hpclk : t.reg .PCLKDIV = (s.reg .PCLKDIV &&& not32 L.CLK_PCLKDIV_APB1DIV_Msk)) :
    calibrationClocks L eadc s t := by
  unfold calibrationClocks unitDiv apb1Div
  rw [hdiv, hsel, hpclk]
  refine ⟨hlock, ?_, ?_, ?_, ?_, ?_, ?_⟩
  · rw [upd_field _ _ _ (hF.div_fits eadc), Nat.shiftLeft_shiftRight]
  · exact upd_field _ _ _ (hF.hclk_fits eadc)
  · rw [andnot_and_msk, Nat.zero_shiftRight]
  · exact upd_rest _ _ _ (hF.div_fits eadc)
  · exact upd_rest _ _ _ (hF.hclk_fits eadc)
  · rw [Nat.and_assoc, Nat.and_self]

/-- The clock registers and the lock after the stores of lines 43-92. -/
theorem replay_calibrationStores (L : Layout) (eadc : EADC_T) (mode : Nat) (s : Regs) :
    (Regs.replay L s (calibrationStores L eadc mode s)).locked = false ∧
    (Regs.replay L s (calibrationStores L eadc mode s)).reg (divReg eadc) =
      ((s.reg (divReg eadc) &&& not32 (divMsk L eadc)) ||| (2 <<< divPos L eadc)) ∧
    (Regs.replay L s (calibrationStores L eadc mode s)).reg .CLKSEL0 =
      ((s.reg .CLKSEL0 &&& not32 (selMsk L eadc)) ||| selHCLK L eadc) ∧
    (Regs.replay L s (calibrationStores L eadc mode s)).reg .PCLKDIV =
      (s.reg .PCLKDIV &&& not32 L.CLK_PCLKDIV_APB1DIV_Msk) := by
  cases eadc <;>
    simp [Regs.replay, calibrationStores, Regs.step, Regs.write, Regs.set, divReg, divMsk,
      divPos, selMsk, selHCLK]

theorem getLast_calibrationStores (L : Layout) (eadc : EADC_T) (mode : Nat) (s : Regs) :
    (calibrationStores L eadc mode s).getLast? = some (triggerStore L eadc s) := by
  simp [calibrationStores, triggerStore]

theorem replay_calibrationStores_reg (L : Layout) (eadc : EADC_T) (mode : Nat) (s : Regs)
    (r : Reg) (h1 : r ≠ .CTL eadc) (h2 : r ≠ .CALSR eadc) :
    (Regs.replay L s (calibrationStores L eadc mode s)).reg r =
      if r = divReg eadc then
        ((s.reg (divReg eadc) &&& not32 (divMsk L eadc)) ||| (2 <<< divPos L eadc))
      else if r = .CLKSEL0 then ((s.reg .CLKSEL0 &&& not32 (selMsk L eadc)) ||| selHCLK L eadc)
      else if r = .PCLKDIV then (s.reg .PCLKDIV &&& not32 L.CLK_PCLKDIV_APB1DIV_Msk)
      else if r = .CALCTL eadc then
        (((s.reg (.CALCTL eadc) &&& not32 0x000F0000) ||| 0x00020000) |||
          L.EADC_CALCTL_CAL_Msk)
      else s.reg r := by
  cases eadc <;> cases r <;>
    simp_all [Regs.replay, calibrationStores, Regs.step, Regs.write, Regs.set, divReg, divMsk,
      divPos, selMsk, selHCLK, Function.update_apply]

theorem replay_append (L : Layout) (s : Regs) (xs ys : List Event) :
    Regs.replay L s (xs ++ ys) = Regs.replay L (Regs.replay L s xs) ys := by
  simp [Regs.replay, List.foldl_append]

/-- The write log is faithful: on every path, replaying the log of `EADC_Open` on the
pre-call register file gives the lock state and the content of every register that
the hardware does not drive (all but `CTL` and `CALSR` of the unit) as the call
leaves them. -/
theorem replay_log (L : Layout) (clk : Nat) (hw : Hardware) (eadc : EADC_T) (mode : Nat)
    (s : Regs) (hM : L.EADC_CTL_ADCRST_Msk ≠ 0) (hC : L.EADC_CALSR_CALIF_Msk ≠ 0) :
    ∃ res, EADC_Open L clk hw eadc mode s = some res ∧
      (Regs.replay L s res.log).locked = res.regs.locked ∧
      (∀ r, r ≠ .CTL eadc → r ≠ .CALSR eadc →
        (Regs.replay L s res.log).reg r = res.regs.reg r) := by
  obtain ⟨d1, d2, d3, d4, d5⟩ := divReg_ne eadc
  by_cases h0 : califClear L eadc s
  · by_cases hr : resetCompletes clk hw
    · by_cases hc : calObserved clk hw
      · obtain ⟨res, hres, -, hlog, hlock, -, -, hcalctl, hframe, -⟩ :=
          EADC_Open_calOk L clk hw eadc mode s hM hC h0 hr hc
        have hrest : ∀ t : Regs,
            Regs.replay L t
                [Event.write .PCLKDIV (s.reg .PCLKDIV), Event.write .CLKSEL0 (s.reg .CLKSEL0),
                  Event.write (divReg eadc) (s.reg (divReg eadc))] =
              ((t.set .PCLKDIV (s.reg .PCLKDIV)).set .CLKSEL0 (s.reg .CLKSEL0)).set
                (divReg eadc) (s.reg (divReg eadc)) := by
          intro t
          cases eadc <;> rfl
        have hlk : ∀ t : Regs, t.locked = false →
            (Regs.replay L t (if s.locked = true then [Event.lockReg] else [])).locked =
                s.locked ∧
              (Regs.replay L t (if s.locked = true then [Event.lockReg] else [])).reg =
                t.reg := by
          intro t ht
          cases hl : s.locked <;> simp [Regs.replay, Regs.step, ht]
        obtain ⟨k1, k2⟩ := hlk
          (((Regs.replay L s (calibrationStores L eadc mode s)).set .PCLKDIV
            (s.reg .PCLKDIV)).set .CLKSEL0 (s.reg .CLKSEL0) |>.set (divReg eadc)
              (s.reg (divReg eadc)))
          (by simp [Regs.set, (replay_calibrationStores L eadc mode s).1])
        refine ⟨res, hres, ?_, ?_⟩
        · rw [hlog, hlock, replay_append, replay_append, hrest]
          exact k1
        · intro r h1 h2
          have hcs := replay_calibrationStores_reg L eadc mode s r h1 h2
          rw [hlog, replay_append, replay_append, hrest, k2]
          simp only [Regs.set, Function.update_apply]
          split_ifs with h4 h5 h6
          · rw [h4]
            exact (hframe _ d1 d2 d3).symm
          · rw [h5]
            exact (hframe _ (by simp) (by simp) (by simp)).symm
          · rw [h6]
            exact (hframe _ (by simp) (by simp) (by simp)).symm
          · rw [hcs, if_neg h4, if_neg h5, if_neg h6]
            by_cases h3 : r = .CALCTL eadc
            · rw [if_pos h3, h3, hcalctl]
            · rw [if_neg h3]
              exact (hframe r h1 h2 h3).symm
      · obtain ⟨res, hres, -, hlog, hlock, -, hdiv, hsel, hpclk, -, hcalctl, hframe, -⟩ :=
          EADC_Open_calErr L clk hw eadc mode s hM hC h0 hr hc
        refine ⟨res, hres, ?_, ?_⟩
        · rw [hlog, hlock]
          exact (replay_calibrationStores L eadc mode s).1
        · intro r h1 h2
          rw [hlog, replay_calibrationStores_reg L eadc mode s r h1 h2]
          split_ifs with h4 h5 h6 h3
          · rw [h4, hdiv]
          · rw [h5, hsel]
          · rw [h6, hpclk]
          · rw [h3, hcalctl]
          · exact (hframe r h1 h4 h5 h6 h2 h3).symm
    · refine ⟨_, EADC_Open_timeout L clk hw eadc mode s hM h0 hr, ?_, ?_⟩
      · simp [Regs.replay, Regs.step, Regs.write, Regs.set]
      · intro r h1 h2
        simp [Regs.replay, Regs.step, Regs.write, Regs.set, Function.update_apply, h1]
  · refine ⟨_, EADC_Open_warm L clk hw eadc mode s h0, ?_, ?_⟩
    · simp [Regs.replay, Regs.step, Regs.write, Regs.set]
    · intro r h1 h2
      simp [Regs.replay, Regs.step, Regs.write, Regs.set, Function.update_apply, h1]

/-- C13: for every unit and every pre-call register file with `CALIF` clear in which
the reset completes, the stores `EADC_Open` has made when it sets the
calibration-trigger bit are the stores of lines 43-92 (they open its write log and
end with the store that sets `CAL` in `CALCTL`), and in the register file these
stores produce the lock is disengaged, the unit's divider field holds 2, the unit's
clock-source field in `CLKSEL0` selects `HCLK`, `PCLKDIV.APB1DIV` is 0, and every
other bit of the unit's divider register, of `CLKSEL0` and of `PCLKDIV` has its
pre-call value.  Replaying the log reproduces what the call leaves behind (in all
registers the hardware does not drive), and when the calibration wait expires the
call returns `EADC_CAL_ERR` with exactly these stores made and leaves that clock
configuration behind. -/
theorem C13_clocks_at_calibration_trigger (L : Layout) (clk : Nat) (hw : Hardware)
    (eadc : EADC_T) (mode : Nat) (s : Regs) (hL : L.WellFormed) (hF : L.ClockFields)
    (h0 : califClear L eadc s) (hr : resetCompletes clk hw) :
    ∃ res, EADC_Open L clk hw eadc mode s = some res ∧
      calibrationStores L eadc mode s <+: res.log ∧
      (calibrationStores L eadc mode s).getLast? = some (triggerStore L eadc s) ∧
      calibrationClocks L eadc s (Regs.replay L s (calibrationStores L eadc mode s)) ∧
      (Regs.replay L s res.log).locked = res.regs.locked ∧
      (∀ r, r ≠ .CTL eadc → r ≠ .CALSR eadc →
        (Regs.replay L s res.log).reg r = res.regs.reg r) ∧
      (¬ calObserved clk hw →
        res.ret = L.EADC_CAL_ERR ∧ res.log = calibrationStores L eadc mode s ∧
          calibrationClocks L eadc s res.regs) := by
  obtain ⟨res, hres, f1, f2⟩ := replay_log L clk hw eadc mode s hL.adcrst_ne hL.calif_ne
  obtain ⟨r1, r2, r3, r4⟩ := replay_calibrationStores L eadc mode s
  have hclocks := calibrationClocks_of_values L hF eadc s _ r1 r2 r3 r4
  refine ⟨res, hres, ?_, getLast_calibrationStores L eadc mode s, hclocks, f1, f2, ?_⟩
  · by_cases hc : calObserved clk hw
    · obtain ⟨res2, hres2, -, hlog, -⟩ :=
        EADC_Open_calOk L clk hw eadc mode s hL.adcrst_ne hL.calif_ne h0 hr hc
      rw [hres] at hres2
      cases hres2
      rw [hlog, List.append_assoc]
      exact List.prefix_append _ _
    · obtain ⟨res2, hres2, -, hlog, -⟩ :=
        EADC_Open_calErr L clk hw eadc mode s hL.adcrst_ne hL.calif_ne h0 hr hc
      rw [hres] at hres2
      cases hres2
      rw [hlog]
  · intro hc
    obtain ⟨res2, hres2, hret, hlog, hlock, -, hdiv, hsel, hpclk, -⟩ :=
      EADC_Open_calErr L clk hw eadc mode s hL.adcrst_ne hL.calif_ne h0 hr hc
    rw [hres] at hres2
    cases hres2
    exact ⟨hret, hlog, calibrationClocks_of_values L hF eadc s _ hlock hdiv hsel hpclk⟩

/-- Instance of C13: `EADC1` on `coldRegs` at `SystemCoreClock = 200000000`, with a
calibration that never finishes. -/
theorem C13_witness :
    califClear m460 .EADC1 coldRegs ∧ resetCompletes 200000000 hwCalNever ∧
    ∃ res, EADC_Open m460 200000000 hwCalNever .EADC1 0 coldRegs = some res ∧
      calibrationStores m460 .EADC1 0 coldRegs <+: res.log ∧
      (calibrationStores m460 .EADC1 0 coldRegs).getLast? =
        some (triggerStore m460 .EADC1 coldRegs) ∧
      calibrationClocks m460 .EADC1 coldRegs
        (Regs.replay m460 coldRegs (calibrationStores m460 .EADC1 0 coldRegs)) ∧
      (Regs.replay m460 coldRegs res.log).locked = res.regs.locked ∧
      (∀ r, r ≠ .CTL .EADC1 → r ≠ .CALSR .EADC1 →
        (Regs.replay m460 coldRegs res.log).reg r = res.regs.reg r) ∧
      (¬ calObserved 200000000 hwCalNever →
        res.ret = m460.EADC_CAL_ERR ∧ res.log = calibrationStores m460 .EADC1 0 coldRegs ∧
          calibrationClocks m460 .EADC1 coldRegs res.regs) :=
  ⟨by unfold califClear; decide, resetCompletes_hwCalNever _,
    C13_clocks_at_calibration_trigger m460 200000000 hwCalNever .EADC1 0 coldRegs
      m460_wellFormed m460_clockFields (by unfold califClear; decide)
      (resetCompletes_hwCalNever _)⟩

/-! ## The two bounded waits -/

theorem pollBudget_eq (clk : Nat) (hclk : clk < 4294967296) (hN : 1 ≤ clk >>> 4) :
    pollBudget clk = clk >>> 4 := by
  unfold pollBudget countdown
  rw [Nat.mod_eq_of_lt hclk, if_neg (by omega)]

/-- C14: with `N = SystemCoreClock >> 4` and `N ≥ 1`, for every unit and every
behaviour of the hardware flags `EADC_Open` returns, and each of its two waits is a
countdown of `N` polls.  The reset wait makes at most `N` polls and times out
(`EADC_TIMEOUT_ERR`, after exactly `N` polls) exactly when `CALIF` was clear at entry
and `ADCRST` reads as set at each of the polls `0..N-1`; otherwise it stops at the
first poll that reads `ADCRST` as clear.  The calibration wait counts from `N`
afresh, whatever number of polls the reset wait made: it makes at most `N` polls and
fails (`EADC_CAL_ERR`, after exactly `N` polls) exactly when `CALIF` reads as clear at
each of its polls `0..N-1`; otherwise it stops at the first poll that reads `CALIF`
as set. -/
theorem C14_waits_are_countdowns (L : Layout) (clk : Nat) (hw : Hardware)
    (eadc : EADC_T) (mode : Nat) (s : Regs) (hL : L.WellFormed)
    (hclk : clk < 4294967296) (hN : 1 ≤ clk >>> 4) :
    ∃ res, EADC_Open L clk hw eadc mode s = some res ∧
      res.resetPolls ≤ clk >>> 4 ∧ res.calPolls ≤ clk >>> 4 ∧
      (res.ret = L.EADC_TIMEOUT_ERR ↔
        califClear L eadc s ∧ ∀ k, k < clk >>> 4 → hw.ADCRST k = true) ∧
      (res.ret = L.EADC_TIMEOUT_ERR → res.resetPolls = clk >>> 4 ∧ res.calPolls = 0) ∧
      (califClear L eadc s → (∃ k, k < clk >>> 4 ∧ hw.ADCRST k = false) →
        0 < res.resetPolls ∧ hw.ADCRST (res.resetPolls - 1) = false ∧
        (∀ j, j < res.resetPolls - 1 → hw.ADCRST j = true) ∧
        (res.ret = L.EADC_CAL_ERR ↔ ∀ k, k < clk >>> 4 → hw.CALIF k = false) ∧
        (res.ret = L.EADC_CAL_ERR → res.calPolls = clk >>> 4) ∧
        ((∃ k, k < clk >>> 4 ∧ hw.CALIF k = true) →
          0 < res.calPolls ∧ hw.CALIF (res.calPolls - 1) = true ∧
          ∀ j, j < res.calPolls - 1 → hw.CALIF j = false)) := by
  have hB := pollBudget_eq clk hclk hN
  have hrc : resetCompletes clk hw ↔ ∃ k, k < clk >>> 4 ∧ hw.ADCRST k = false := by
    unfold resetCompletes; rw [hB]
  have hco : calObserved clk hw ↔ ∃ k, k < clk >>> 4 ∧ hw.CALIF k = true := by
    unfold calObserved; rw [hB]
  have hnr : ¬ resetCompletes clk hw → ∀ k, k < clk >>> 4 → hw.ADCRST k = true := by
    intro h k hk
    by_contra hk2
    exact h (hrc.mpr ⟨k, hk, by simpa using hk2⟩)
  have hnc : ¬ calObserved clk hw → ∀ k, k < clk >>> 4 → hw.CALIF k = false := by
    intro h k hk
    by_contra hk2
    exact h (hco.mpr ⟨k, hk, by simpa using hk2⟩)
  have hallr : (∀ k, k < clk >>> 4 → hw.ADCRST k = true) → ¬ resetCompletes clk hw := by
    intro h hr
    obtain ⟨k, hk1, hk2⟩ := hrc.mp hr
    rw [h k hk1] at hk2
    exact Bool.noConfusion hk2
  have hallc : (∀ k, k < clk >>> 4 → hw.CALIF k = false) → ¬ calObserved clk hw := by
    intro h hc
    obtain ⟨k, hk1, hk2⟩ := hco.mp hc
    rw [h k hk1] at hk2
    exact Bool.noConfusion hk2
  by_cases h0 : califClear L eadc s
  · by_cases hr : resetCompletes clk hw
    · by_cases hc : calObserved clk hw
      · obtain ⟨res, hres, hret, -, -, -, -, -, -, p1, p2, p3, p4, q1, q2, q3, q4⟩ :=
          EADC_Open_calOk L clk hw eadc mode s hL.adcrst_ne hL.calif_ne h0 hr hc
        rw [hB] at p2 q2
        have hnt : res.ret ≠ L.EADC_TIMEOUT_ERR := by
          rw [hret]; exact clockCheck_ne_timeout L hL eadc _
        have hnce : res.ret ≠ L.EADC_CAL_ERR := by
          rw [hret]; exact clockCheck_ne_cal L hL eadc _
        refine ⟨res, hres, p2, q2, ⟨fun h => absurd h hnt, fun h => absurd hr (hallr h.2)⟩,
          fun h => absurd h hnt, fun _ _ => ⟨p1, p3, p4,
            ⟨fun h => absurd h hnce, fun h => absurd hc (hallc h)⟩,
            fun h => absurd h hnce, fun _ => ⟨q1, q3, q4⟩⟩⟩
      · obtain ⟨res, hres, hret, -, -, -, -, -, -, -, -, -, p1, p2, p3, p4, q⟩ :=
          EADC_Open_calErr L clk hw eadc mode s hL.adcrst_ne hL.calif_ne h0 hr hc
        rw [hB] at p2 q
        have hnt : res.ret ≠ L.EADC_TIMEOUT_ERR := by
          rw [hret]; exact fun h => hL.timeout_ne_cal h.symm
        refine ⟨res, hres, p2, Nat.le_of_eq q,
          ⟨fun h => absurd h hnt, fun h => absurd hr (hallr h.2)⟩,
          fun h => absurd h hnt, fun _ _ => ⟨p1, p3, p4,
            ⟨fun _ => hnc hc, fun _ => hret⟩, fun _ => q,
            fun h => absurd (hco.mpr h) hc⟩⟩
    · refine ⟨_, EADC_Open_timeout L clk hw eadc mode s hL.adcrst_ne h0 hr,
        Nat.le_of_eq hB, Nat.zero_le _, ⟨fun _ => ⟨h0, hnr hr⟩, fun _ => rfl⟩,
        fun _ => ⟨hB, rfl⟩, fun _ h => absurd (hrc.mpr h) hr⟩
  · refine ⟨_, EADC_Open_warm L clk hw eadc mode s h0, Nat.zero_le _, Nat.zero_le _,
      ⟨fun h => absurd h (clockCheck_ne_timeout L hL eadc _), fun h => absurd h.1 h0⟩,
      fun h => absurd h (clockCheck_ne_timeout L hL eadc _), fun h => absurd h h0⟩

/-- Instance of C14: `EADC0` on `coldRegs` at `SystemCoreClock = 200000000`
(`N = 12500000`), with hardware that ends the reset and the calibration at the
second poll. -/
theorem C14_witness :
    200000000 < 4294967296 ∧ 1 ≤ 200000000 >>> 4 ∧
    ∃ res, EADC_Open m460 200000000 hwGood .EADC0 0 coldRegs = some res ∧
      res.resetPolls ≤ 200000000 >>> 4 ∧ res.calPolls ≤ 200000000 >>> 4 ∧
      (res.ret = m460.EADC_TIMEOUT_ERR ↔
        califClear m460 .EADC0 coldRegs ∧ ∀ k, k < 200000000 >>> 4 → hwGood.ADCRST k = true) ∧
      (res.ret = m460.EADC_TIMEOUT_ERR →
        res.resetPolls = 200000000 >>> 4 ∧ res.calPolls = 0) ∧
      (califClear m460 .EADC0 coldRegs →
        (∃ k, k < 200000000 >>> 4 ∧ hwGood.ADCRST k = false) →
        0 < res.resetPolls ∧ hwGood.ADCRST (res.resetPolls - 1) = false ∧
        (∀ j, j < res.resetPolls - 1 → hwGood.ADCRST j = true) ∧
        (res.ret = m460.EADC_CAL_ERR ↔ ∀ k, k < 200000000 >>> 4 → hwGood.CALIF k = false) ∧
        (res.ret = m460.EADC_CAL_ERR → res.calPolls = 200000000 >>> 4) ∧
        ((∃ k, k < 200000000 >>> 4 ∧ hwGood.CALIF k = true) →
          0 < res.calPolls ∧ hwGood.CALIF (res.calPolls - 1) = true ∧
          ∀ j, j < res.calPolls - 1 → hwGood.CALIF j = false)) :=
  ⟨by decide, by decide,
    C14_waits_are_countdowns m460 200000000 hwGood .EADC0 0 coldRegs m460_wellFormed
      (by decide) (by decide)⟩

end EADC
